import Mathlib

/-!
# Draw: the interactive shape-editing model

A shallow embedding of `Draw/Shapes.h`, `Draw/Shapes.cpp` and `Draw/Draw.cpp`
(`draw.cc` is the same program, reformatted, saving to `savefile`).

Conventions of the embedding.

* A C++ `double` is an exact rational (`ℚ`); rounding of the arithmetic is not
  represented.  The pointer coordinates the callbacks receive are C++ `int`s and
  are integers (`ℤ`) here.
* `Point2D` objects live in a heap `Mem = ℕ → Point2D`; a `Point2D *` is an
  address.  `Shape` objects live in a second heap and a `Shape *` is an address
  into it.  Nothing is ever deleted by the program, so an address stays valid
  once allocated; `new` hands out the next unused address.
* Indexing a vector past its end is undefined behaviour in the source.  The
  embedding reads address `0` there; every theorem that goes through such a
  read carries a hypothesis that keeps the index in range.
* The save file is a list of newline-terminated lines, each a leading integer
  followed by blank-separated tokens; a token is kept as the value `atof` reads
  from it together with its length in characters.  `fout << d` writes a `double`
  in the default format of the stream, six significant digits.
* OpenGL drawing and the purely visual widget state (pressed / highlighted
  buttons, slider lengths, captions) are left out.
-/

namespace Draw

/-! ## Draw.h -/

/-- The `enum ShapeType` of `Draw.h` (`NUM_SHAPE_TYPES`, a count, is left out). -/
inductive ShapeType
  | NONE
  | LINE
  | BEZIER_CURVE
  | RECTANGLE
  | TRIANGLE
  | PENTAGON
  | CIRCLE
deriving DecidableEq, Repr

/-- The integer value of an enumerator, as `fout << GetShapeType()` prints it. -/
def ShapeType.toInt : ShapeType → ℤ
  | .NONE => 0
  | .LINE => 1
  | .BEZIER_CURVE => 2
  | .RECTANGLE => 3
  | .TRIANGLE => 4
  | .PENTAGON => 5
  | .CIRCLE => 6

def INPUT_STR_LEN : ℕ := 500

/-- The greatest value of the C++ type `int` (32 bits), which `currentShapeType`
has in the `LOAD_BUTTON` branch. -/
def INT_MAX : ℤ := 2147483647

/-- The least value of the C++ type `int` (32 bits). -/
def INT_MIN : ℤ := -2147483648

def DEFAULT_MODE : ShapeType := .LINE

def DEFAULT_RED : ℚ := 1 / 4

def DEFAULT_GREEN : ℚ := 1 / 2

def DEFAULT_BLUE : ℚ := 3 / 4

def CONTROL_PANEL_WIDTH : ℚ := 200

/-! ## Shapes.h / Shapes.cpp : Point2D -/

def POINT_RADIUS : ℚ := 4

/-- The class `Point2D`: two mutable coordinates. -/
structure Point2D where
  mX : ℚ
  mY : ℚ
deriving DecidableEq

/-- The heap of `Point2D` objects, indexed by address. -/
abbrev Mem := ℕ → Point2D

/-- Embedding of `Point2D::Contains`.  The source computes
`distance = sqrt((x - mX) * (x - mX) + (y - mY) * (y - mY))` in `double` and
returns `distance < POINT_RADIUS`.  Here the coordinates are exact rationals and
the comparison is carried out on the squares.  The two tests agree wherever the
differences, the products and the sum are computed without rounding, as they are
for the integer coordinates the pointer gives; at a point with other coordinates
the rounded sum can reach `16` where the exact one is below it.  The properties
below use the truth value of the test only, never the distance. -/
def Point2D.Contains (p : Point2D) (x y : ℚ) : Bool :=
  decide ((x - p.mX) * (x - p.mX) + (y - p.mY) * (y - p.mY) < POINT_RADIUS * POINT_RADIUS)

/-- Embedding of `Point2D::SetX` on the object at address `a`. -/
def Mem.SetX (h : Mem) (a : ℕ) (x : ℚ) : Mem :=
  Function.update h a { h a with mX := x }

/-- Embedding of `Point2D::SetY` on the object at address `a`. -/
def Mem.SetY (h : Mem) (a : ℕ) (y : ℚ) : Mem :=
  Function.update h a { h a with mY := y }

/-- The calls `SetX(x)` and `SetY(y)` in a row on the object at address `a`. -/
def Mem.setXY (h : Mem) (a : ℕ) (x y : ℚ) : Mem :=
  (h.SetX a x).SetY a y

/-! ## Shapes.h / Shapes.cpp : Shape and its subclasses -/

/-- An object of class `Shape` or of one of its subclasses.  `mVertices` holds
`Point2D *` addresses.  `mTop … mRight` exist in class `Rectangle` only and
`mRadius` in class `Circle` only; they are `0` in the other classes.  The cached
`mRadius` of a circle is always the result of a `sqrt`; the record keeps the
argument of that `sqrt` in `mRadiusSq`, so the radius itself is
`Real.sqrt mRadiusSq`. -/
structure Shape where
  mVertices : List ℕ
  mRed : ℚ
  mGreen : ℚ
  mBlue : ℚ
  mShapeType : ShapeType
  mSelected : Bool
  mFilled : Bool
  mTop : ℚ := 0
  mBottom : ℚ := 0
  mLeft : ℚ := 0
  mRight : ℚ := 0
  mRadiusSq : ℚ := 0
deriving DecidableEq

/-- A line the program writes to `cerr`. -/
inductive Diag
  | wrongVertexCount (n : ℕ) (cls : ShapeType)
  | invalidSaveData
deriving DecidableEq, Repr

/-- Embedding of `Shape::GetPointAt`. -/
def Shape.GetPointAt (s : Shape) (i : ℕ) : ℕ := s.mVertices.getD i 0

/-- Embedding of `Shape::NumPoints`. -/
def Shape.NumPoints (s : Shape) : ℕ := s.mVertices.length

/-- Embedding of `Shape::SetColor`. -/
def Shape.SetColor (s : Shape) (r g b : ℚ) : Shape :=
  { s with mRed := r, mGreen := g, mBlue := b }

/-- Embedding of `Shape::SetSelected`. -/
def Shape.SetSelected (s : Shape) (b : Bool) : Shape :=
  { s with mSelected := b }

/-- The constructor `Shape::Shape` (constructors are named `new` here): the
pointers are copied one by one, the colour is set, the type is `NONE` until the
subclass constructor sets it, and a new shape is selected. -/
def Shape.new (points : List ℕ) (r g b : ℚ) (filled : Bool) : Shape :=
  { mVertices := points.foldl (fun acc p => acc ++ [p]) []
    mRed := r
    mGreen := g
    mBlue := b
    mShapeType := .NONE
    mSelected := true
    mFilled := filled }

/-- Embedding of `Shape::Adjust`: only the selected point moves. -/
def Shape.Adjust (x y : ℚ) (selectedPoint : ℕ) (h : Mem) : Mem :=
  h.setXY selectedPoint x y

/-- One pass through the body of the loop of `Shape::Move`.  The source computes
`x + dx` and `y + dy` in `double`; here the sums are exact.  The two agree
wherever the differences and the sums are computed without rounding, as they are
for integer coordinates; the properties below that go through this step are
either about such coordinates or about which coordinates are equal, which
rounding keeps. -/
def Shape.MoveStep (x y : ℚ) (selectedPoint : ℕ) (h : Mem) (a : ℕ) : Mem :=
  if a = selectedPoint then h
  else
    let dx := (h a).mX - (h selectedPoint).mX
    let dy := (h a).mY - (h selectedPoint).mY
    h.setXY a (x + dx) (y + dy)

/-- Embedding of `Shape::Move`. -/
def Shape.Move (s : Shape) (x y : ℚ) (selectedPoint : ℕ) (h : Mem) : Mem :=
  (s.mVertices.foldl (Shape.MoveStep x y selectedPoint) h).setXY selectedPoint x y

/-- The four assignments to `mLeft`, `mRight`, `mTop`, `mBottom` that end
`Rectangle::Rectangle`, `Rectangle::Move` and `Rectangle::Adjust`. -/
def Rectangle.cacheBox (h : Mem) (s : Shape) : Shape :=
  let p0 := h (s.GetPointAt 0)
  let p1 := h (s.GetPointAt 1)
  { s with
    mLeft := if p0.mX < p1.mX then p0.mX else p1.mX
    mRight := if p0.mX > p1.mX then p0.mX else p1.mX
    mTop := if p0.mY > p1.mY then p0.mY else p1.mY
    mBottom := if p0.mY < p1.mY then p0.mY else p1.mY }

/-- Embedding of `Rectangle::GetLength`. -/
def Rectangle.GetLength (s : Shape) : ℚ := s.mRight - s.mLeft

/-- Embedding of `Rectangle::GetHeight`. -/
def Rectangle.GetHeight (s : Shape) : ℚ := s.mTop - s.mBottom

/-- Embedding of `Rectangle::Contains`. -/
def Rectangle.Contains (s : Shape) (x y : ℚ) : Bool :=
  decide (x > s.mLeft) && decide (x < s.mRight) && decide (y < s.mTop) && decide (y > s.mBottom)

/-- Embedding of `Rectangle::Move`. -/
def Rectangle.Move (s : Shape) (x y : ℚ) (selectedPoint : ℕ) (h : Mem) : Mem × Shape :=
  let h1 := Shape.Move s x y selectedPoint h
  (h1, Rectangle.cacheBox h1 s)

/-- One pass through the body of the loop of `Rectangle::Adjust`. -/
def Rectangle.AdjustStep (x y : ℚ) (selectedPoint : ℕ) (h : Mem) (a : ℕ) : Mem :=
  if a ≠ selectedPoint then
    let h1 := if (h a).mX = (h selectedPoint).mX then h.SetX a x else h
    if (h1 a).mY = (h1 selectedPoint).mY then h1.SetY a y else h1
  else h

/-- Embedding of `Rectangle::Adjust`. -/
def Rectangle.Adjust (s : Shape) (x y : ℚ) (selectedPoint : ℕ) (h : Mem) : Mem × Shape :=
  let h1 := (s.mVertices.foldl (Rectangle.AdjustStep x y selectedPoint) h).setXY selectedPoint x y
  (h1, Rectangle.cacheBox h1 s)

/-- The argument of the `sqrt` in `Circle::Circle` and `Circle::Adjust`. -/
def Circle.radiusSq (h : Mem) (s : Shape) : ℚ :=
  let p0 := h (s.GetPointAt 0)
  let p1 := h (s.GetPointAt 1)
  (p0.mX - p1.mX) * (p0.mX - p1.mX) + (p0.mY - p1.mY) * (p0.mY - p1.mY)

/-- Embedding of `Circle::Adjust`. -/
def Circle.Adjust (s : Shape) (x y : ℚ) (selectedPoint : ℕ) (h : Mem) : Mem × Shape :=
  let h1 := Shape.Adjust x y selectedPoint h
  (h1, { s with mRadiusSq := Circle.radiusSq h1 s })

/-- The virtual call `shape->Move(x, y, selectedPoint)`: `Rectangle` overrides
`Move`, every other class inherits `Shape::Move`. -/
def Shape.callMove (s : Shape) (x y : ℚ) (selectedPoint : ℕ) (h : Mem) : Mem × Shape :=
  match s.mShapeType with
  | .RECTANGLE => Rectangle.Move s x y selectedPoint h
  | _ => (Shape.Move s x y selectedPoint h, s)

/-- The virtual call `shape->Adjust(x, y, selectedPoint)`: `Rectangle` and
`Circle` override `Adjust`, every other class inherits `Shape::Adjust`. -/
def Shape.callAdjust (s : Shape) (x y : ℚ) (selectedPoint : ℕ) (h : Mem) : Mem × Shape :=
  match s.mShapeType with
  | .RECTANGLE => Rectangle.Adjust s x y selectedPoint h
  | .CIRCLE => Circle.Adjust s x y selectedPoint h
  | _ => (Shape.Adjust x y selectedPoint h, s)

/-- The constructor `Line::Line`. -/
def Line.new (points : List ℕ) (r g b : ℚ) : Shape × List Diag :=
  let s := Shape.new points r g b false
  ({ s with mShapeType := .LINE },
    if s.mVertices.length ≠ 2 then [Diag.wrongVertexCount s.mVertices.length .LINE] else [])

/-- The constructor `BezierCurve::BezierCurve`. -/
def BezierCurve.new (points : List ℕ) (r g b : ℚ) : Shape × List Diag :=
  let s := Shape.new points r g b false
  ({ s with mShapeType := .BEZIER_CURVE },
    if s.mVertices.length ≠ 4 then [Diag.wrongVertexCount s.mVertices.length .BEZIER_CURVE] else [])

/-- The constructor `Rectangle::Rectangle`.  Given two points it allocates the two other corners
at the next two free addresses `n` and `n + 1`; the result carries the heap and
the next free address afterwards.  The source reads `mVertices[0]` and
`mVertices[1]` whatever the number of points; with fewer than two points that is
an access out of range, which has no defined result.  The definition stands for
the constructor on two points or more, and every property below that goes
through it has two points at least. -/
def Rectangle.new (h : Mem) (n : ℕ) (points : List ℕ) (r g b : ℚ) (filled : Bool) :
    Mem × ℕ × Shape × List Diag :=
  let s := Shape.new points r g b filled
  let d := if s.mVertices.length ≠ 2 ∧ s.mVertices.length ≠ 4 then
    [Diag.wrongVertexCount s.mVertices.length .RECTANGLE] else []
  if s.mVertices.length = 2 then
    let h1 := Function.update h n ⟨(h (s.GetPointAt 0)).mX, (h (s.GetPointAt 1)).mY⟩
    let s1 := { s with mVertices := s.mVertices ++ [n] }
    let h2 := Function.update h1 (n + 1) ⟨(h1 (s1.GetPointAt 1)).mX, (h1 (s1.GetPointAt 0)).mY⟩
    let s2 := { s1 with mVertices := s1.mVertices ++ [n + 1] }
    (h2, n + 2, { Rectangle.cacheBox h2 s2 with mShapeType := .RECTANGLE }, d)
  else
    (h, n, { Rectangle.cacheBox h s with mShapeType := .RECTANGLE }, d)

/-- The constructor `Triangle::Triangle`. -/
def Triangle.new (points : List ℕ) (r g b : ℚ) (filled : Bool) : Shape × List Diag :=
  let s := Shape.new points r g b filled
  ({ s with mShapeType := .TRIANGLE },
    if s.mVertices.length ≠ 3 then [Diag.wrongVertexCount s.mVertices.length .TRIANGLE] else [])

/-- The constructor `Pentagon::Pentagon`. -/
def Pentagon.new (points : List ℕ) (r g b : ℚ) (filled : Bool) : Shape × List Diag :=
  let s := Shape.new points r g b filled
  ({ s with mShapeType := .PENTAGON },
    if s.mVertices.length ≠ 5 then [Diag.wrongVertexCount s.mVertices.length .PENTAGON] else [])

/-- The constructor `Circle::Circle`: the radius is computed only when exactly two vertices were
passed; otherwise `mRadius` is left as it is. -/
def Circle.new (h : Mem) (points : List ℕ) (r g b : ℚ) (filled : Bool) : Shape × List Diag :=
  let s := Shape.new points r g b filled
  if s.mVertices.length ≠ 2 then
    ({ s with mShapeType := .CIRCLE }, [Diag.wrongVertexCount s.mVertices.length .CIRCLE])
  else
    ({ s with mRadiusSq := Circle.radiusSq h s, mShapeType := .CIRCLE }, [])

/-! ## The save file -/

/-- A blank-delimited token of the save file: the value `atof` reads from it and
its length in characters. -/
structure Token where
  val : ℚ
  width : ℕ
deriving DecidableEq

/-- One newline-terminated line of the save file: the leading integer that
`fin >> currentShapeType` reads, the tokens that follow it, each preceded by one
blank, and whether one more blank stands before the newline. -/
structure FileLine where
  tag : ℤ
  toks : List Token
  trailingBlank : Bool
deriving DecidableEq

/-- The number of characters between the leading integer and the newline, which
is what `fin.getline(line, INPUT_STR_LEN)` has to store. -/
def FileLine.restLen (l : FileLine) : ℕ :=
  (l.toks.map (fun t => 1 + t.width)).sum + (if l.trailingBlank then 1 else 0)

/-- The integer `⌊log₁₀ k⌋` for `k ≥ 1`, by repeated division (the first argument
bounds the number of divisions). -/
def decLog : ℕ → ℕ → ℕ
  | 0, _ => 0
  | fuel + 1, k => if k < 10 then 0 else decLog fuel (k / 10) + 1

/-- The least `j` with `d ≤ n * 10 ^ j` (the first argument bounds the search). -/
def decShift : ℕ → ℕ → ℕ → ℕ
  | 0, _, _ => 0
  | fuel + 1, n, d => if d ≤ n then 0 else decShift fuel (n * 10) d + 1

/-- The quotient `num / den` rounded to the nearest integer, ties to even. -/
def roundHalfEven (num den : ℕ) : ℕ :=
  let q := num / den
  let r := num % den
  if 2 * r < den then q
  else if den < 2 * r then q + 1
  else if q % 2 = 0 then q else q + 1

/-- The number of digits of a six-digit mantissa that remain once its trailing
zeros are dropped. -/
def sigDigits (m : ℕ) : ℕ :=
  if m % 10 ≠ 0 then 6
  else if m % 100 ≠ 0 then 5
  else if m % 1000 ≠ 0 then 4
  else if m % 10000 ≠ 0 then 3
  else if m % 100000 ≠ 0 then 2
  else 1

/-- What `fout << d` writes for a `double d`.  The stream is used with its default
settings, that is the `%g` format with six significant digits: the value is
rounded to six significant decimal digits, written in fixed notation when the
decimal exponent is between `-4` and `5` and in scientific notation (two exponent
digits at least) otherwise, without trailing zeros.  `val` is the value of the
text, `width` its number of characters. -/
def printDouble (q : ℚ) : Token :=
  if q = 0 then ⟨0, 1⟩
  else
    let n := q.num.natAbs
    let d := q.den
    let e0 : ℤ := if d ≤ n then (decLog (n / d) (n / d) : ℕ) else -((decShift d n d : ℕ) : ℤ)
    let num := if e0 ≤ 5 then n * 10 ^ (5 - e0).toNat else n
    let den := if e0 ≤ 5 then d else d * 10 ^ (e0 - 5).toNat
    let m0 := roundHalfEven num den
    let m := if m0 = 1000000 then 100000 else m0
    let e := if m0 = 1000000 then e0 + 1 else e0
    let mag : ℚ :=
      if 5 ≤ e then ((m * 10 ^ (e - 5).toNat : ℕ) : ℚ)
      else (m : ℚ) / ((10 ^ (5 - e).toNat : ℕ) : ℚ)
    let s := sigDigits m
    let w :=
      if e < -4 ∨ 6 ≤ e then
        (if 1 < s then s + 1 else 1) + 2 + max 2 (decLog e.natAbs e.natAbs + 1)
      else if 0 ≤ e then
        (e.toNat + 1) + (if e.toNat + 1 < s then 1 + (s - (e.toNat + 1)) else 0)
      else 2 + ((-e).toNat - 1) + s
    ⟨if q < 0 then -mag else mag, (if q < 0 then 1 else 0) + w⟩

/-- What `fout << b` writes for a `bool b`: `0` or `1`. -/
def printBool (b : Bool) : Token :=
  ⟨if b then 1 else 0, 1⟩

/-! ## Draw.cpp : the global state -/

/-- The `enum ButtonType` of `Shapes.h` (without the count `NUM_BUTTON_TYPES`). -/
inductive ButtonType
  | MODE_BUTTON
  | COLOR_BUTTON
  | RGB_SLIDER
  | FILL_BUTTON
  | OUTLINE_BUTTON
  | UNDO_BUTTON
  | CLEAR_BUTTON
  | SAVE_BUTTON
  | LOAD_BUTTON
  | QUIT_BUTTON
  | LABEL
deriving DecidableEq, Repr

/-- The enumerators `RED`, `GREEN`, `BLUE` of `enum Color`, the identifiers of the
three sliders. -/
def Color.RED : ℤ := 4

def Color.GREEN : ℤ := 9

def Color.BLUE : ℤ := 12

/-- An object of class `Button` (a `Rectangle` with a type and an identifier).
The caption and the pressed flag are only drawn and are left out. -/
structure Button extends Shape where
  mButtonType : ButtonType
  mAssociatedID : ℤ
deriving DecidableEq

/-- How the process can end inside a callback: `exit(0)`, or the dereference of a
null `Point2D *`. -/
inductive Halt
  | exit
  | nullPointer
deriving DecidableEq, Repr

/-- The global variables of `Draw.cpp`, the two heaps, the save file on disk
(`none` when it does not exist) and what has been written to `cerr`. -/
structure State where
  gScreenX : ℤ
  gScreenY : ℤ
  gLeftDragging : Bool
  gRightDragging : Bool
  gSelectedPoint : Option ℕ
  gSelectedShape : Option ℕ
  gPoints : List ℕ
  gShapes : List ℕ
  gButtons : List Button
  gShapeMode : ShapeType
  gRed : ℚ
  gGreen : ℚ
  gBlue : ℚ
  gFilled : Bool
  mem : Mem
  nextPoint : ℕ
  shapes : ℕ → Shape
  nextShape : ℕ
  file : Option (List FileLine)
  cerr : List Diag

/-- The cast `(ShapeType) id` applied to a button identifier.  A value outside the
enumeration behaves like `NONE` wherever the mode is read (the `default` branch
of the `switch`), and is mapped to it. -/
def ShapeType.ofInt (i : ℤ) : ShapeType :=
  if i = 1 then .LINE
  else if i = 2 then .BEZIER_CURVE
  else if i = 3 then .RECTANGLE
  else if i = 4 then .TRIANGLE
  else if i = 5 then .PENTAGON
  else if i = 6 then .CIRCLE
  else .NONE

/-- Embedding of `DeselectAllShapes`. -/
def State.DeselectAllShapes (s : State) : State :=
  { s with
    shapes := s.gShapes.foldl
      (fun sh a => Function.update sh a ((sh a).SetSelected false)) s.shapes }

/-- Embedding of `SetColor` of `Draw.cpp`: the current colour is set and the shape
`gSelectedShape` points to, if any, is recoloured. -/
def State.SetColor (s : State) (r g b : ℚ) : State :=
  let s1 := { s with gRed := r, gGreen := g, gBlue := b }
  match s1.gSelectedShape with
  | some a => { s1 with shapes := Function.update s1.shapes a ((s1.shapes a).SetColor r g b) }
  | none => s1

/-- Embedding of `SetShapeMode`. -/
def State.SetShapeMode (s : State) (m : ShapeType) : State :=
  { s with gShapeMode := m, gPoints := [] }

/-- Embedding of `SetFilled`. -/
def State.SetFilled (s : State) (b : Bool) : State :=
  { s with gFilled := b }

/-- The statement `gPoints.push_back(new Point2D(x, y))`. -/
def State.pushPoint (s : State) (x y : ℚ) : State :=
  { s with
    mem := Function.update s.mem s.nextPoint ⟨x, y⟩
    nextPoint := s.nextPoint + 1
    gPoints := s.gPoints ++ [s.nextPoint] }

/-- The statement `gShapes.push_back(new C(...))` for an object that has been
constructed already, with what its constructor wrote to `cerr`. -/
def State.pushShape (s : State) (r : Shape × List Diag) : State :=
  { s with
    shapes := Function.update s.shapes s.nextShape r.1
    nextShape := s.nextShape + 1
    gShapes := s.gShapes ++ [s.nextShape]
    cerr := s.cerr ++ r.2 }

/-- The statement `gShapes.push_back(new Rectangle(gPoints, r, g, b, filled))`. -/
def State.pushRectangle (s : State) (r g b : ℚ) (filled : Bool) : State :=
  let c := Rectangle.new s.mem s.nextPoint s.gPoints r g b filled
  ({ s with mem := c.1, nextPoint := c.2.1 }).pushShape (c.2.2.1, c.2.2.2)

/-- The statement `gShapes.push_back(new C(gPoints, r, g, b, filled))` followed by
`gPoints.clear()`, for the class `C` that belongs to the type `t` (nothing
happens for `NONE`). -/
def State.pushNew (s : State) (t : ShapeType) (r g b : ℚ) (filled : Bool) : State :=
  match t with
  | .NONE => s
  | .LINE => { s.pushShape (Line.new s.gPoints r g b) with gPoints := [] }
  | .BEZIER_CURVE => { s.pushShape (BezierCurve.new s.gPoints r g b) with gPoints := [] }
  | .RECTANGLE => { s.pushRectangle r g b filled with gPoints := [] }
  | .TRIANGLE => { s.pushShape (Triangle.new s.gPoints r g b filled) with gPoints := [] }
  | .PENTAGON => { s.pushShape (Pentagon.new s.gPoints r g b filled) with gPoints := [] }
  | .CIRCLE => { s.pushShape (Circle.new s.mem s.gPoints r g b filled) with gPoints := [] }

/-- The two search loops that open the left-button and the right-button branch of
`mouse`: the in-progress points first, then the vertices of the shapes in
`gShapes` order.  The result is `none` when no point contains `(x, y)`; otherwise
it is the state after the assignments made at the hit, the dragging flag apart. -/
def State.hitTest (s : State) (x y : ℚ) : Option State :=
  match s.gPoints.find? (fun p => (s.mem p).Contains x y) with
  | some p => some { s with gSelectedPoint := some p }
  | none =>
    match s.gShapes.findSome? (fun a =>
        ((s.shapes a).mVertices.find? (fun p => (s.mem p).Contains x y)).map
          (fun p => (a, p))) with
    | some (a, p) =>
      let s1 := ({ s with gSelectedPoint := some p }).DeselectAllShapes
      some { s1 with
        gSelectedShape := some a
        shapes := Function.update s1.shapes a ((s1.shapes a).SetSelected true) }
    | none => none


/-! ## Draw.cpp : saving and loading -/

/-- The line the `SAVE_BUTTON` branch writes for one shape: the type, every vertex
as `x y`, then red, green, blue and the fill flag, every item but the last
followed by one blank. -/
def State.saveShape (s : State) (a : ℕ) : FileLine :=
  let sh := s.shapes a
  { tag := sh.mShapeType.toInt
    toks := (sh.mVertices.foldl
        (fun acc p => acc ++ [printDouble (s.mem p).mX, printDouble (s.mem p).mY]) []) ++
      [printDouble sh.mRed, printDouble sh.mGreen, printDouble sh.mBlue, printBool sh.mFilled]
    trailingBlank := false }

/-- The line the `SAVE_BUTTON` branch writes for the in-progress points: `NONE` and
every point as `x y`, every item followed by one blank. -/
def State.savePoints (s : State) : FileLine :=
  { tag := ShapeType.NONE.toInt
    toks := s.gPoints.foldl
      (fun acc p => acc ++ [printDouble (s.mem p).mX, printDouble (s.mem p).mY]) []
    trailingBlank := true }

/-- The `SAVE_BUTTON` branch of `mouse`: the file is rewritten with one line per
shape and, when there are in-progress points, one `NONE` line. -/
def State.Save (s : State) : State :=
  { s with
    file := some
      ((s.gShapes.foldl (fun acc a => acc ++ [s.saveShape a]) []) ++
        (if s.gPoints.isEmpty then [] else [s.savePoints])) }

/-- The first loop over `input` in the `LOAD_BUTTON` branch: while more than four
numbers are left, the next two become a point of `gPoints`.  The result is the
state and the numbers not yet consumed. -/
def State.loadPairs (s : State) : List ℚ → State × List ℚ
  | a :: b :: rest =>
    if (a :: b :: rest).length > 4 then (s.pushPoint a b).loadPairs rest
    else (s, a :: b :: rest)
  | l => (s, l)

/-- The loop of the `NONE` case: while more than one number is left, the next two
become a point of `gPoints`. -/
def State.loadRest (s : State) : List ℚ → State
  | a :: b :: rest => (s.pushPoint a b).loadRest rest
  | _ => s

/-- The body of the `while (fin.good())` loop of the `LOAD_BUTTON` branch for one
line of the file.  The Boolean tells whether the loop goes on: it stops when
`fin >> currentShapeType` meets an integer that does not fit an `int`, when
`getline` cannot store the rest of the line in `INPUT_STR_LEN - 1` characters
(in both cases the stream is no longer good, the line is not processed and
nothing is reported) and at the `break` after invalid data. -/
def State.loadLine (s : State) (l : FileLine) : State × Bool :=
  if l.tag < INT_MIN ∨ INT_MAX < l.tag then (s, false)
  else if l.restLen > INPUT_STR_LEN - 1 then (s, false)
  else
    let input := l.toks.map Token.val
    let c := s.loadPairs input
    if l.tag = ShapeType.NONE.toInt then
      (c.1.loadRest c.2, true)
    else
      match c.2 with
      | [r, g, b, filled] =>
        (c.1.pushNew (ShapeType.ofInt l.tag) r g b (decide (filled ≠ 0)), true)
      | _ => ({ c.1 with cerr := c.1.cerr ++ [Diag.invalidSaveData] }, false)

/-- The `while (fin.good())` loop of the `LOAD_BUTTON` branch over the lines of the
file. -/
def State.loadLoop (s : State) : List FileLine → State
  | [] => s
  | l :: ls =>
    let c := s.loadLine l
    if c.2 then c.1.loadLoop ls else c.1

/-- The `LOAD_BUTTON` branch of `mouse`.  When the file cannot be opened nothing
happens; otherwise the canvas is cleared and the file is read. -/
def State.Load (s : State) : State :=
  match s.file with
  | none => s
  | some ls => ({ s with gShapes := [], gPoints := [] }).loadLoop ls

/-! ## Draw.cpp : the callbacks -/

/-- The `UNDO_BUTTON` branch of `mouse`. -/
def State.Undo (s : State) : State :=
  if !s.gPoints.isEmpty then { s with gPoints := s.gPoints.dropLast }
  else if !s.gShapes.isEmpty then { s with gShapes := s.gShapes.dropLast }
  else s

/-- The `CLEAR_BUTTON` branch of `mouse`. -/
def State.Clear (s : State) : State :=
  { s with gShapes := [], gPoints := [] }

/-- The `RGB_SLIDER` branch of `mouse`. -/
def State.slide (s : State) (b : Button) (x : ℚ) : State :=
  let newRGB := (x - b.mLeft) / Rectangle.GetLength b.toShape
  if b.mAssociatedID = Color.RED then { s with gRed := newRGB }
  else if b.mAssociatedID = Color.GREEN then { s with gGreen := newRGB }
  else if b.mAssociatedID = Color.BLUE then { s with gBlue := newRGB }
  else s

/-- The part of `mouse` for a left click in the control panel: the first button
that contains the pointer is served. -/
def State.leftDownPanel (s : State) (x y : ℚ) : Except Halt State :=
  match s.gButtons.find? (fun b => Rectangle.Contains b.toShape x y) with
  | none => .ok s
  | some b =>
    match b.mButtonType with
    | .MODE_BUTTON => .ok (s.SetShapeMode (ShapeType.ofInt b.mAssociatedID))
    | .FILL_BUTTON => .ok (s.SetFilled true)
    | .OUTLINE_BUTTON => .ok (s.SetFilled false)
    | .COLOR_BUTTON => .ok (s.SetColor b.mRed b.mGreen b.mBlue)
    | .RGB_SLIDER => .ok (s.slide b x)
    | .SAVE_BUTTON => .ok s.Save
    | .LOAD_BUTTON => .ok s.Load
    | .UNDO_BUTTON => .ok s.Undo
    | .CLEAR_BUTTON => .ok s.Clear
    | .QUIT_BUTTON => .error .exit
    | .LABEL => .ok s

/-- The part of `mouse` for a left click in the canvas. -/
def State.leftDownCanvas (s : State) (x y : ℚ) : State :=
  let s1 :=
    if !s.gLeftDragging then
      match s.hitTest x y with
      | some t => { t with gLeftDragging := true }
      | none => s
    else s
  if !s1.gLeftDragging then
    let s2 := if s1.gPoints.isEmpty then s1.DeselectAllShapes else s1
    let s3 := s2.pushPoint x y
    match s3.gShapeMode with
    | .LINE =>
      if s3.gPoints.length ≥ 2 then
        s3.DeselectAllShapes.pushNew .LINE s3.gRed s3.gGreen s3.gBlue s3.gFilled
      else s3
    | .BEZIER_CURVE =>
      if s3.gPoints.length ≥ 4 then
        s3.DeselectAllShapes.pushNew .BEZIER_CURVE s3.gRed s3.gGreen s3.gBlue s3.gFilled
      else s3
    | .RECTANGLE =>
      if s3.gPoints.length ≥ 2 then
        s3.DeselectAllShapes.pushNew .RECTANGLE s3.gRed s3.gGreen s3.gBlue s3.gFilled
      else s3
    | .TRIANGLE =>
      if s3.gPoints.length ≥ 3 then
        s3.DeselectAllShapes.pushNew .TRIANGLE s3.gRed s3.gGreen s3.gBlue s3.gFilled
      else s3
    | .PENTAGON =>
      if s3.gPoints.length ≥ 5 then
        s3.DeselectAllShapes.pushNew .PENTAGON s3.gRed s3.gGreen s3.gBlue s3.gFilled
      else s3
    | .CIRCLE =>
      if s3.gPoints.length ≥ 2 then
        s3.DeselectAllShapes.pushNew .CIRCLE s3.gRed s3.gGreen s3.gBlue s3.gFilled
      else s3
    | .NONE => s3
  else s1

/-- The part of `mouse` for a right click in the canvas. -/
def State.rightDownCanvas (s : State) (x y : ℚ) : State :=
  if !s.gRightDragging then
    match s.hitTest x y with
    | some t => { t with gRightDragging := true }
    | none => s
  else s

/-- The GLUT button codes `mouse` is called with. -/
inductive MouseButton
  | GLUT_LEFT_BUTTON
  | GLUT_MIDDLE_BUTTON
  | GLUT_RIGHT_BUTTON
deriving DecidableEq, Repr

/-- The GLUT button states `mouse` is called with. -/
inductive MouseState
  | GLUT_DOWN
  | GLUT_UP
deriving DecidableEq, Repr

/-- The callback `mouse`.  `y0` is measured from the top of the window and is
turned into `y = gScreenY - y0` first. -/
def mouse (s : State) (mouse_button : MouseButton) (state : MouseState) (x y0 : ℤ) :
    Except Halt State :=
  let y : ℤ := s.gScreenY - y0
  match mouse_button, state with
  | .GLUT_LEFT_BUTTON, .GLUT_DOWN =>
    if (x : ℚ) > CONTROL_PANEL_WIDTH then .ok (s.leftDownCanvas x y)
    else s.leftDownPanel x y
  | .GLUT_LEFT_BUTTON, .GLUT_UP =>
    .ok { s with gLeftDragging := false, gSelectedPoint := none }
  | .GLUT_RIGHT_BUTTON, .GLUT_DOWN =>
    if (x : ℚ) > CONTROL_PANEL_WIDTH then .ok (s.rightDownCanvas x y) else .ok s
  | .GLUT_RIGHT_BUTTON, .GLUT_UP =>
    .ok { s with gRightDragging := false, gSelectedPoint := none }
  | .GLUT_MIDDLE_BUTTON, _ => .ok s

/-- The callback `motion`.  In the left-drag branch the selected shape is moved
without a test of `gSelectedPoint`; with a null pointer the process dies. -/
def motion (s : State) (x y0 : ℤ) : Except Halt State :=
  let y : ℤ := s.gScreenY - y0
  if s.gRightDragging then
    match s.gSelectedShape with
    | some a =>
      match s.gSelectedPoint with
      | some p =>
        let c := (s.shapes a).callAdjust x y p s.mem
        .ok { s with mem := c.1, shapes := Function.update s.shapes a c.2 }
      | none => .ok s
    | none =>
      match s.gSelectedPoint with
      | some p => .ok { s with mem := s.mem.setXY p x y }
      | none => .ok s
  else if s.gLeftDragging then
    match s.gSelectedShape with
    | some a =>
      match s.gSelectedPoint with
      | some p =>
        let c := (s.shapes a).callMove x y p s.mem
        .ok { s with mem := c.1, shapes := Function.update s.shapes a c.2 }
      | none => .error .nullPointer
    | none =>
      match s.gSelectedPoint with
      | some p => .ok { s with mem := s.mem.setXY p x y }
      | none => .ok s
  else .ok s

/-- The callback `keyboard`. -/
def keyboard (s : State) (c : Char) : Except Halt State :=
  if c = Char.ofNat 27 then .error .exit
  else if c = 'L' ∨ c = 'l' then .ok (s.SetShapeMode .LINE)
  else if c = 'B' ∨ c = 'b' then .ok (s.SetShapeMode .BEZIER_CURVE)
  else if c = 'R' ∨ c = 'r' then .ok (s.SetShapeMode .RECTANGLE)
  else if c = 'T' ∨ c = 't' then .ok (s.SetShapeMode .TRIANGLE)
  else if c = 'P' ∨ c = 'p' then .ok (s.SetShapeMode .PENTAGON)
  else if c = 'C' ∨ c = 'c' then .ok (s.SetShapeMode .CIRCLE)
  else .ok s

/-- The callback `reshape`. -/
def reshape (s : State) (w h : ℤ) : State :=
  { s with gScreenX := w, gScreenY := h }

/-! ## Draw.cpp : initialisation -/

def DEFAULT_BUTTON_MARGIN_X : ℚ := 15

def DEFAULT_BUTTON_MARGIN_Y : ℚ := 2

def DEFAULT_BUTTON_WIDTH : ℚ := CONTROL_PANEL_WIDTH - 2 * DEFAULT_BUTTON_MARGIN_X

def DEFAULT_BUTTON_HEIGHT : ℚ := 20

def DEFAULT_BUTTON_RED : ℚ := 9 / 10

def DEFAULT_BUTTON_GREEN : ℚ := 9 / 10

def DEFAULT_BUTTON_BLUE : ℚ := 9 / 10

/-- The button `AddButton` (or `AddSlider`) appends to `gButtons`: a `Rectangle`
built from the two corners `(x1, y1)` and `(x2, y2)`, not selected.  The corner
points of a button are only read by the drawing code; they are kept on a heap of
their own here and not on the heap of the canvas points. -/
def AddButton (x1 y1 x2 y2 r g b : ℚ) (buttonType : ButtonType) (associatedID : ℤ) : Button :=
  let h : Mem := fun a => if a = 0 then ⟨x1, y1⟩ else ⟨x2, y2⟩
  { toShape := { (Rectangle.new h 2 [0, 1] r g b true).2.2.1 with mSelected := false }
    mButtonType := buttonType
    mAssociatedID := associatedID }

/-- The button `InitializeMyStuff` places in row `n` of the control panel. -/
def rowButton (gScreenY : ℚ) (n : ℚ) (r g b : ℚ) (buttonType : ButtonType)
    (associatedID : ℤ) : Button :=
  AddButton DEFAULT_BUTTON_MARGIN_X
    (gScreenY - n * DEFAULT_BUTTON_MARGIN_Y - (n - 1) * DEFAULT_BUTTON_HEIGHT)
    (DEFAULT_BUTTON_MARGIN_X + DEFAULT_BUTTON_WIDTH)
    (gScreenY - n * DEFAULT_BUTTON_MARGIN_Y - n * DEFAULT_BUTTON_HEIGHT)
    r g b buttonType associatedID

/-- The state `InitializeMyStuff` leaves, for a given content of the save file on
disk.  The rows are those of the calls of `AddButton` and `AddSlider` that are
not commented out (the labels go to `gLabels` and are only drawn). -/
def InitializeMyStuff (disk : Option (List FileLine)) : State :=
  let gScreenY : ℤ := 600
  let plain := fun (n : ℚ) (t : ButtonType) (i : ℤ) =>
    rowButton gScreenY n DEFAULT_BUTTON_RED DEFAULT_BUTTON_GREEN DEFAULT_BUTTON_BLUE t i
  let s : State :=
    { gScreenX := 900
      gScreenY := gScreenY
      gLeftDragging := false
      gRightDragging := false
      gSelectedPoint := none
      gSelectedShape := none
      gPoints := []
      gShapes := []
      gButtons :=
        [ plain 2 .MODE_BUTTON ShapeType.LINE.toInt,
          plain 3 .MODE_BUTTON ShapeType.BEZIER_CURVE.toInt,
          plain 4 .MODE_BUTTON ShapeType.RECTANGLE.toInt,
          plain 5 .MODE_BUTTON ShapeType.TRIANGLE.toInt,
          plain 6 .MODE_BUTTON ShapeType.PENTAGON.toInt,
          plain 7 .MODE_BUTTON ShapeType.CIRCLE.toInt,
          rowButton gScreenY 10 1 0 0 .RGB_SLIDER Color.RED,
          rowButton gScreenY 11 0 1 0 .RGB_SLIDER Color.GREEN,
          rowButton gScreenY 12 0 0 1 .RGB_SLIDER Color.BLUE,
          plain 14 .FILL_BUTTON ShapeType.NONE.toInt,
          plain 15 .OUTLINE_BUTTON ShapeType.NONE.toInt,
          plain 17 .SAVE_BUTTON ShapeType.NONE.toInt,
          plain 18 .LOAD_BUTTON ShapeType.NONE.toInt,
          plain 19 .UNDO_BUTTON ShapeType.NONE.toInt,
          plain 20 .CLEAR_BUTTON ShapeType.NONE.toInt,
          plain 21 .QUIT_BUTTON ShapeType.NONE.toInt ]
      gShapeMode := .NONE
      gRed := DEFAULT_RED
      gGreen := DEFAULT_GREEN
      gBlue := DEFAULT_BLUE
      gFilled := false
      mem := fun _ => ⟨0, 0⟩
      nextPoint := 0
      shapes := fun _ =>
        { mVertices := [], mRed := 0, mGreen := 0, mBlue := 0, mShapeType := .NONE,
          mSelected := false, mFilled := false }
      nextShape := 0
      file := disk
      cerr := [] }
  ((s.SetShapeMode DEFAULT_MODE).SetColor DEFAULT_RED DEFAULT_GREEN DEFAULT_BLUE).SetFilled true

/-! ## Runs of the program -/

/-- An event GLUT delivers to one of the callbacks. -/
inductive Event
  | keyboard (c : Char)
  | reshape (w h : ℤ)
  | mouse (mouse_button : MouseButton) (state : MouseState) (x y : ℤ)
  | motion (x y : ℤ)

/-- The callback that serves an event. -/
def step (s : State) : Event → Except Halt State
  | .keyboard c => keyboard s c
  | .reshape w h => .ok (reshape s w h)
  | .mouse b st x y => mouse s b st x y
  | .motion x y => motion s x y

/-- The state after a sequence of events, as long as the process lives. -/
def run (s : State) : List Event → Except Halt State
  | [] => .ok s
  | e :: es =>
    match step s e with
    | .ok t => run t es
    | .error h => .error h

/-- The states the program can be in: those a sequence of events leads to from
the state after initialisation, whatever the save file on disk holds at the
start. -/
def Reachable (s : State) : Prop :=
  ∃ disk es, run (InitializeMyStuff disk) es = .ok s

/-! ## Definitions used to state the properties -/

/-- A call of `Rectangle::Adjust` or `Rectangle::Move` on the corner with index
`i`, with target `(x, y)`. -/
inductive RectOp
  | Adjust (i : Fin 4) (x y : ℚ)
  | Move (i : Fin 4) (x y : ℚ)

/-- The heap and the rectangle after one call. -/
def RectOp.apply (c : Mem × Shape) : RectOp → Mem × Shape
  | .Adjust i x y => Rectangle.Adjust c.2 x y (c.2.GetPointAt i) c.1
  | .Move i x y => Rectangle.Move c.2 x y (c.2.GetPointAt i) c.1

/-- The four vertices are the corners of an axis-aligned rectangle, vertices `0`
and `1` being opposite: vertex `2` is `(x₀, y₁)` and vertex `3` is `(x₁, y₀)`. -/
def Rectangle.axisAligned (h : Mem) (s : Shape) : Prop :=
  h (s.GetPointAt 2) = ⟨(h (s.GetPointAt 0)).mX, (h (s.GetPointAt 1)).mY⟩ ∧
  h (s.GetPointAt 3) = ⟨(h (s.GetPointAt 1)).mX, (h (s.GetPointAt 0)).mY⟩

/-- The rectangle `Rectangle::Rectangle` builds from two points `p0` and `p1`,
kept at the addresses `0` and `1` of a heap whose next free address is `2`. -/
def rectangleFrom (p0 p1 : Point2D) : Mem × ℕ × Shape × List Diag :=
  Rectangle.new (fun a => if a = 0 then p0 else p1) 2 [0, 1] 0 0 0 false

/-- The button that goes down is the left one or the right one, and no drag with
that button is in progress (the state the event protocol calls idle). -/
def idleDown (s : State) (btn : MouseButton) : Prop :=
  (btn = .GLUT_LEFT_BUTTON ∧ s.gLeftDragging = false) ∨
  (btn = .GLUT_RIGHT_BUTTON ∧ s.gRightDragging = false)

/-- The dragging flag that belongs to a button. -/
def State.dragging (s : State) : MouseButton → Bool
  | .GLUT_LEFT_BUTTON => s.gLeftDragging
  | .GLUT_MIDDLE_BUTTON => false
  | .GLUT_RIGHT_BUTTON => s.gRightDragging

/-- No in-progress point contains `(x, y)`. -/
def State.missesPoints (s : State) (x y : ℚ) : Prop :=
  ∀ q ∈ s.gPoints, (s.mem q).Contains x y = false

/-- The first shape of `gShapes` with a vertex that contains `(x, y)` is the one
at address `a`, and `p` is its first such vertex. -/
def State.firstVertexHit (s : State) (x y : ℚ) (a p : ℕ) : Prop :=
  ∃ pre post vpre vpost,
    s.gShapes = pre ++ a :: post ∧
    (∀ b ∈ pre, ∀ v ∈ (s.shapes b).mVertices, (s.mem v).Contains x y = false) ∧
    (s.shapes a).mVertices = vpre ++ p :: vpost ∧
    (∀ v ∈ vpre, (s.mem v).Contains x y = false) ∧
    (s.mem p).Contains x y = true

/-- The first in-progress point that contains `(x, y)` is `p`. -/
def State.firstPointHit (s : State) (x y : ℚ) (p : ℕ) : Prop :=
  ∃ pre post,
    s.gPoints = pre ++ p :: post ∧
    (∀ q ∈ pre, (s.mem q).Contains x y = false) ∧
    (s.mem p).Contains x y = true

/-- The state a run ends in, or `d` when the process ends during the run. -/
def okOr (r : Except Halt State) (d : State) : State :=
  match r with
  | .ok s => s
  | .error _ => d

/-- A press and release of the left button at `(x, y)`, `y` measured from the top
of the window. -/
def click (x y : ℤ) : List Event :=
  [.mouse .GLUT_LEFT_BUTTON .GLUT_DOWN x y, .mouse .GLUT_LEFT_BUTTON .GLUT_UP x y]

/-- The scene after three lines have been drawn in the initial `LINE` mode:
`(250, 300)–(400, 300)`, `(250, 200)–(400, 200)` and `(250, 100)–(400, 100)` in
canvas coordinates. -/
def threeLines : State :=
  okOr (run (InitializeMyStuff none)
    (click 250 300 ++ click 400 300 ++ click 250 400 ++ click 400 400 ++
      click 250 500 ++ click 400 500)) (InitializeMyStuff none)

/-- The scene after a line `(250, 300)–(400, 300)` has been drawn, a first point
of a second line has been placed at `(300, 200)`, and the line has been dragged
by its first vertex to `(301, 200)`: the in-progress point and the first vertex
of the line are one unit apart. -/
def pointNextToVertex : State :=
  okOr (run (InitializeMyStuff none)
    (click 250 300 ++ click 400 300 ++ click 300 400 ++
      [.mouse .GLUT_LEFT_BUTTON .GLUT_DOWN 250 300, .motion 301 400,
       .mouse .GLUT_LEFT_BUTTON .GLUT_UP 301 400])) (InitializeMyStuff none)

/-- The scene `threeLines` after the first line has been selected by a click on
its first vertex. -/
def threeLinesFirst : State :=
  okOr (run threeLines (click 250 300)) threeLines

/-- The scene `threeLinesFirst` after the second line has been selected by a click
on its first vertex. -/
def threeLinesSecond : State :=
  okOr (run threeLinesFirst (click 250 400)) threeLinesFirst

/-- The fill flag of a new shape of type `m` when the fill preference is
`gFilled`: the constructors of `Line` and `BezierCurve` take no fill argument and
always store `false`. -/
def ShapeType.fillFlag (m : ShapeType) (gFilled : Bool) : Bool :=
  match m with
  | .LINE => false
  | .BEZIER_CURVE => false
  | _ => gFilled

/-- What the round trip through the save file is compared on, for one shape: the
type, the coordinates of the vertices in order, the colour and the fill flag. -/
structure ShapeView where
  type : ShapeType
  vertices : List Point2D
  red : ℚ
  green : ℚ
  blue : ℚ
  filled : Bool
deriving DecidableEq

/-- The view of the shape at address `a`. -/
def State.shapeView (s : State) (a : ℕ) : ShapeView :=
  { type := (s.shapes a).mShapeType
    vertices := (s.shapes a).mVertices.map s.mem
    red := (s.shapes a).mRed
    green := (s.shapes a).mGreen
    blue := (s.shapes a).mBlue
    filled := (s.shapes a).mFilled }

/-- The scene as the round trip compares it: the views of the committed shapes in
order, and the in-progress points in order. -/
def State.view (s : State) : List ShapeView × List Point2D :=
  (s.gShapes.map s.shapeView, s.gPoints.map s.mem)

/-- The number of vertices a shape of each type holds and saves: the rectangle
holds its two derived corners as well. -/
def ShapeType.savedCount : ShapeType → ℕ
  | .NONE => 0
  | .LINE => 2
  | .BEZIER_CURVE => 4
  | .RECTANGLE => 4
  | .TRIANGLE => 3
  | .PENTAGON => 5
  | .CIRCLE => 2

/-- A shape as the constructors make it: of a real type, with the vertex count
of that type, and not filled when it is a line or a Bezier curve. -/
def Shape.wellFormed (sh : Shape) : Prop :=
  sh.mShapeType ≠ .NONE ∧ sh.mVertices.length = sh.mShapeType.savedCount ∧
  (sh.mShapeType = .LINE ∨ sh.mShapeType = .BEZIER_CURVE → sh.mFilled = false)

/-- The number `q` is written to the file without loss: it has at most six
significant decimal digits. -/
def printsExactly (q : ℚ) : Prop := (printDouble q).val = q

/-- Every number the `SAVE_BUTTON` branch writes for the scene is written without
loss. -/
def State.savesExactly (s : State) : Prop :=
  (∀ a ∈ s.gShapes,
    printsExactly (s.shapes a).mRed ∧ printsExactly (s.shapes a).mGreen ∧
    printsExactly (s.shapes a).mBlue ∧
    ∀ p ∈ (s.shapes a).mVertices,
      printsExactly (s.mem p).mX ∧ printsExactly (s.mem p).mY) ∧
  ∀ p ∈ s.gPoints, printsExactly (s.mem p).mX ∧ printsExactly (s.mem p).mY

/-- Every line of the save file fits the buffer `getline` reads it into. -/
def State.fileFits (s : State) : Prop :=
  ∀ l ∈ s.file.getD [], l.restLen ≤ INPUT_STR_LEN - 1

/-- The statement `gPoints.push_back(new Point2D(x, y))` repeated for a list of
points. -/
def State.pushPoints (t : State) (ps : List Point2D) : State :=
  ps.foldl (fun t p => t.pushPoint p.mX p.mY) t

/-- The coordinates of a list of points in the order the file holds them. -/
def flat : List Point2D → List ℚ
  | [] => []
  | p :: ps => p.mX :: p.mY :: flat ps

/-- Every shape of the scene and every vertex of such a shape has been allocated:
its address is below the next free one. -/
def State.allocated (t : State) : Prop :=
  ∀ b ∈ t.gShapes, b < t.nextShape ∧ ∀ v ∈ (t.shapes b).mVertices, v < t.nextPoint

/-- The scene of the round-trip test: a line `(250, 300)–(400, 300)`, a filled
circle with centre `(500, 200)` through `(550, 200)`, and two in-progress points
`(300, 500)`, `(350, 500)` placed in `PENTAGON` mode. -/
def lineCirclePoints : State :=
  okOr (run (InitializeMyStuff none)
    (click 250 300 ++ click 400 300 ++ [.keyboard 'c'] ++ click 500 400 ++ click 550 400 ++
      [.keyboard 'p'] ++ click 300 100 ++ click 350 100)) (InitializeMyStuff none)

/-- The scene after the red slider has been clicked one pixel right of its left
edge, which sets the current red to `1 / 170`, and a line has been drawn. -/
def sliderLine : State :=
  okOr (run (InitializeMyStuff none) (click 16 210 ++ click 250 300 ++ click 400 300))
    (InitializeMyStuff none)

/-- The scene after two lines have been drawn and the `Save` and then the `Load`
button have been clicked. -/
def twoLinesReloaded : State :=
  okOr (run (InitializeMyStuff none)
    (click 250 300 ++ click 400 300 ++ click 250 400 ++ click 400 400 ++
      click 100 364 ++ click 100 386)) (InitializeMyStuff none)

/-- A scene with 250 in-progress points, all at `(0, 0)`. -/
def manyPoints : State :=
  (InitializeMyStuff none).pushPoints (List.replicate 250 ⟨0, 0⟩)

/-- The cached box of a rectangle is the one spanned by its first two corner
points as they stand on the heap. -/
def Rectangle.boxOfCorners (h : Mem) (s : Shape) : Prop :=
  s.mLeft = min (h (s.GetPointAt 0)).mX (h (s.GetPointAt 1)).mX ∧
  s.mRight = max (h (s.GetPointAt 0)).mX (h (s.GetPointAt 1)).mX ∧
  s.mBottom = min (h (s.GetPointAt 0)).mY (h (s.GetPointAt 1)).mY ∧
  s.mTop = max (h (s.GetPointAt 0)).mY (h (s.GetPointAt 1)).mY

/-- The type of the first button of the control panel that contains `(x, y)`. -/
def State.buttonAt (s : State) (x y : ℚ) : Option ButtonType :=
  (s.gButtons.find? (fun b => Rectangle.Contains b.toShape x y)).map Button.mButtonType

/-- The initial scene after canvas points have been placed at `(250, 300)` and
`(400, 300)` in the initial `LINE` mode. -/
def lineDrawn : State :=
  okOr (run (InitializeMyStuff none) (click 250 300 ++ click 400 300)) (InitializeMyStuff none)

/-- The scene `lineDrawn` after the left button has gone down on the first vertex,
the pointer has moved to `(250, 350)` and the button has been released. -/
def lineDragged : State :=
  okOr (run lineDrawn
    [.mouse .GLUT_LEFT_BUTTON .GLUT_DOWN 250 300, .motion 250 250,
     .mouse .GLUT_LEFT_BUTTON .GLUT_UP 250 250]) lineDrawn

/-- The scene `lineDragged` after a click on the `Undo` button. -/
def lineUndone : State :=
  okOr (run lineDragged (click 100 408)) lineDragged

/-- The numbers `atof` reads from the tokens of a line. -/
def FileLine.vals (l : FileLine) : List ℚ := l.toks.map Token.val

/-- The state at the head of the load loop: the canvas has been cleared. -/
def State.cleared (s : State) : State :=
  { s with gShapes := [], gPoints := [] }

/-- A shape record as the file format describes it: a type, the points, and the
four trailing numbers red, green, blue and the fill flag. -/
structure Record where
  type : ShapeType
  points : List Point2D
  red : ℚ
  green : ℚ
  blue : ℚ
  filled : ℚ

/-- The shape a record describes: a line or a Bezier curve is never filled,
whatever the record says. -/
def Record.view (c : Record) : ShapeView :=
  { type := c.type
    vertices := c.points
    red := c.red
    green := c.green
    blue := c.blue
    filled := c.type.fillFlag (decide (c.filled ≠ 0)) }

/-- The line `l` holds the record `c`: its leading integer is the type, its
numbers are the coordinates of the points followed by red, green, blue and the
fill flag, and it fits the buffer of the load branch. -/
def FileLine.holds (l : FileLine) (c : Record) : Prop :=
  l.tag = c.type.toInt ∧
  l.vals = flat c.points ++ [c.red, c.green, c.blue, c.filled] ∧
  l.restLen ≤ INPUT_STR_LEN - 1

/-- A record in the format of the save file: a real shape type with the number
of points a shape of that type is saved with. -/
def Record.wellFormed (c : Record) : Prop :=
  c.type ≠ .NONE ∧ c.points.length = c.type.savedCount

/-- The file `ls` is a well-formed save file with the shape records `cs` and the
in-progress points `pend`: one line per record, in order, followed, when there
are in-progress points, by one `NONE` line with their coordinates. -/
def wellFormedFile (ls : List FileLine) (cs : List Record) (pend : List Point2D) : Prop :=
  ∃ shapeLines last,
    ls = shapeLines ++ last ∧
    List.Forall₂ FileLine.holds shapeLines cs ∧
    (∀ c ∈ cs, c.wellFormed) ∧
    ((pend = [] ∧ last = []) ∨
      (∃ l, last = [l] ∧ l.tag = ShapeType.NONE.toInt ∧ l.vals = flat pend ∧
        l.restLen ≤ INPUT_STR_LEN - 1))

/-- The line of the save file that starts with the integer `tag` and goes on with
the numbers `vals` as the stream writes them. -/
def fileLine (tag : ℤ) (vals : List ℚ) : FileLine :=
  { tag := tag, toks := vals.map printDouble, trailingBlank := false }

/-- A well-formed save file: a line and one in-progress point.
```
1 250 300 400 300 1 0 0 0
0 300 500 
``` -/
def lineAndPointFile : List FileLine :=
  [fileLine 1 [250, 300, 400, 300, 1, 0, 0, 0],
   { tag := 0, toks := [printDouble 300, printDouble 500], trailingBlank := true }]

/-- A scene with a triangle and one in-progress point, drawn while
`lineAndPointFile` is on disk. -/
def triangleDrawn : State :=
  okOr (run (InitializeMyStuff (some lineAndPointFile))
    ([.keyboard 't'] ++ click 300 100 ++ click 500 100 ++ click 400 300 ++ click 700 500))
    (InitializeMyStuff (some lineAndPointFile))

/-- The scene after three points have been placed in `PENTAGON` mode, at
`(300, 500)`, `(350, 500)` and `(400, 400)` in canvas coordinates. -/
def threePoints : State :=
  okOr (run (InitializeMyStuff none)
    ([.keyboard 'p'] ++ click 300 100 ++ click 350 100 ++ click 400 200))
    (InitializeMyStuff none)

/-- A save file with one in-progress point whose abscissa has seven significant
digits.
```
0 0.1234567 5 
``` -/
def sevenDigitFile : List FileLine :=
  [{ tag := 0, toks := [⟨1234567 / 10000000, 9⟩, ⟨5, 1⟩], trailingBlank := true }]

/-- The scene after the program has started with `sevenDigitFile` on disk and the
Load button has been clicked. -/
def sevenDigitPoint : State :=
  okOr (run (InitializeMyStuff (some sevenDigitFile)) (click 100 386))
    (InitializeMyStuff (some sevenDigitFile))

/-- A save file with three `NONE` lines of fifty points `(0, 0)` each. -/
def threeNoneLinesFile : List FileLine :=
  List.replicate 3 { tag := 0, toks := List.replicate 100 ⟨0, 1⟩, trailingBlank := true }

/-- The scene after the program has started with `threeNoneLinesFile` on disk and
the Load button has been clicked. -/
def crowdedPoints : State :=
  okOr (run (InitializeMyStuff (some threeNoneLinesFile)) (click 100 386))
    (InitializeMyStuff (some threeNoneLinesFile))

/-- The first button of the control panel that contains `(x, y)`, the one a left
click at `(x, y)` is served by. -/
def State.buttonHit (s : State) (x y : ℚ) : Option Button :=
  s.gButtons.find? (fun b => Rectangle.Contains b.toShape x y)

/-- The key is one of the twelve mode keys. -/
def isModeKey (c : Char) : Prop :=
  c = 'L' ∨ c = 'l' ∨ c = 'B' ∨ c = 'b' ∨ c = 'R' ∨ c = 'r' ∨
  c = 'T' ∨ c = 't' ∨ c = 'P' ∨ c = 'p' ∨ c = 'C' ∨ c = 'c'

/-- The mode a mode key stands for. -/
def keyMode (c : Char) : ShapeType :=
  if c = 'L' ∨ c = 'l' then .LINE
  else if c = 'B' ∨ c = 'b' then .BEZIER_CURVE
  else if c = 'R' ∨ c = 'r' then .RECTANGLE
  else if c = 'T' ∨ c = 't' then .TRIANGLE
  else if c = 'P' ∨ c = 'p' then .PENTAGON
  else .CIRCLE

/-- The scene `lineDrawn` after the left button has gone down on the first vertex
of the line. -/
def vertexPressed : State :=
  okOr (run lineDrawn [.mouse .GLUT_LEFT_BUTTON .GLUT_DOWN 250 300]) lineDrawn

/-- The reason for which the process ended, if it did. -/
def haltOf (r : Except Halt State) : Option Halt :=
  match r with
  | .ok _ => none
  | .error e => some e

/-- The events that place two points in `PENTAGON` mode, save, change to `LINE`
mode, load, and place one more point. -/
def pointsReloadedInLineMode : List Event :=
  [.keyboard 'p'] ++ click 300 100 ++ click 350 100 ++ click 100 364 ++ [.keyboard 'l'] ++
    click 100 386 ++ click 400 200

/-- The scene after the events `pointsReloadedInLineMode`. -/
def threeVertexLine : State :=
  okOr (run (InitializeMyStuff none) pointsReloadedInLineMode) (InitializeMyStuff none)

/-- The events that draw the line `(250, 300)–(400, 300)`, click its first vertex,
change to `PENTAGON` mode, place a point at `(500, 300)` and press the left
button on that point. -/
def pointPressedAfterPick : List Event :=
  click 250 300 ++ click 400 300 ++ click 250 300 ++ [.keyboard 'p'] ++ click 500 300 ++
    [.mouse .GLUT_LEFT_BUTTON .GLUT_DOWN 500 300]

/-- The scene after the events `pointPressedAfterPick`. -/
def inProgressPressed : State :=
  okOr (run (InitializeMyStuff none) pointPressedAfterPick) (InitializeMyStuff none)

/-- The scene `inProgressPressed` after the pointer has moved to `(500, 350)`. -/
def inProgressDragged : State :=
  okOr (motion inProgressPressed 500 250) inProgressPressed

/-- The events that draw the line `(250, 300)–(400, 300)`, press the left button
on its first vertex and, while it is held, press and release the right button
on the empty canvas. -/
def rightClickDuringDrag : List Event :=
  click 250 300 ++ click 400 300 ++
    [.mouse .GLUT_LEFT_BUTTON .GLUT_DOWN 250 300,
     .mouse .GLUT_RIGHT_BUTTON .GLUT_DOWN 600 300,
     .mouse .GLUT_RIGHT_BUTTON .GLUT_UP 600 300]

/-- The scene after the events `rightClickDuringDrag`. -/
def draggedPointDropped : State :=
  okOr (run (InitializeMyStuff none) rightClickDuringDrag) (InitializeMyStuff none)

theorem Mem.setXY_apply (h : Mem) (a b : ℕ) (x y : ℚ) :
    h.setXY a x y b = if b = a then ⟨x, y⟩ else h b := by
  unfold Mem.setXY Mem.SetY Mem.SetX
  by_cases hb : b = a
  · subst hb; simp
  · simp [Function.update_noteq hb, hb]

theorem Mem.SetX_apply (h : Mem) (a b : ℕ) (x : ℚ) :
    h.SetX a x b = if b = a then ⟨x, (h a).mY⟩ else h b := by
  unfold Mem.SetX
  by_cases hb : b = a
  · subst hb; simp
  · simp [Function.update_noteq hb, hb]

theorem Mem.SetY_apply (h : Mem) (a b : ℕ) (y : ℚ) :
    h.SetY a y b = if b = a then ⟨(h a).mX, y⟩ else h b := by
  unfold Mem.SetY
  by_cases hb : b = a
  · subst hb; simp
  · simp [Function.update_noteq hb, hb]

/-- The loop of `Shape::Move` over distinct vertices, in closed form. -/
theorem Shape.MoveLoop_apply (x y : ℚ) (p : ℕ) (vs : List ℕ) (hnd : vs.Nodup) (h : Mem) (b : ℕ) :
    vs.foldl (Shape.MoveStep x y p) h b =
      if b ∈ vs ∧ b ≠ p then
        ⟨x + ((h b).mX - (h p).mX), y + ((h b).mY - (h p).mY)⟩
      else h b := by
  induction vs generalizing h with
  | nil => simp
  | cons a vs ih =>
    have hnd' := (List.nodup_cons.mp hnd).2
    have ha := (List.nodup_cons.mp hnd).1
    rw [List.foldl_cons, ih hnd']
    unfold Shape.MoveStep
    by_cases hap : a = p
    · subst hap
      simp only [if_true, List.mem_cons]
      by_cases hb : b = a
      · simp [hb]
      · simp [hb]
    · simp only [hap, if_false, Mem.setXY_apply, List.mem_cons]
      have hpa : ¬ p = a := fun e => hap e.symm
      simp only [hpa, if_false]
      by_cases hb : b = a
      · subst hb
        simp [ha, hap]
      · simp [hb]

/-- The heap after `Shape::Move` on a shape with distinct vertices, in closed form. -/
theorem Shape.Move_apply (s : Shape) (hnd : s.mVertices.Nodup) (x y : ℚ) (p : ℕ) (h : Mem)
    (b : ℕ) :
    Shape.Move s x y p h b =
      if b = p then ⟨x, y⟩
      else if b ∈ s.mVertices then
        ⟨x + ((h b).mX - (h p).mX), y + ((h b).mY - (h p).mY)⟩
      else h b := by
  unfold Shape.Move
  rw [Mem.setXY_apply, Shape.MoveLoop_apply x y p _ hnd]
  by_cases hb : b = p
  · simp [hb]
  · simp [hb]

/-- The loop of `Rectangle::Adjust` over distinct vertices, in closed form. -/
theorem Rectangle.AdjustLoop_apply (x y : ℚ) (p : ℕ) (vs : List ℕ) (hnd : vs.Nodup) (h : Mem)
    (b : ℕ) :
    vs.foldl (Rectangle.AdjustStep x y p) h b =
      if b ∈ vs ∧ b ≠ p then
        ⟨if (h b).mX = (h p).mX then x else (h b).mX,
         if (h b).mY = (h p).mY then y else (h b).mY⟩
      else h b := by
  induction vs generalizing h with
  | nil => simp
  | cons a vs ih =>
    have hnd' := (List.nodup_cons.mp hnd).2
    have ha := (List.nodup_cons.mp hnd).1
    rw [List.foldl_cons, ih hnd']
    unfold Rectangle.AdjustStep
    by_cases hap : a = p
    · subst hap
      simp only [ne_eq, not_true_eq_false, if_false, List.mem_cons]
      by_cases hb : b = a
      · simp [hb]
      · simp [hb]
    · have hpa : ¬ p = a := fun e => hap e.symm
      simp only [ne_eq, hap, not_false_eq_true, if_true, List.mem_cons]
      by_cases hb : b = a
      · subst hb
        by_cases hx : (h b).mX = (h p).mX <;> by_cases hy : (h b).mY = (h p).mY <;>
          simp [ha, hap, hpa, hx, hy, Mem.SetX_apply, Mem.SetY_apply]
      · by_cases hx : (h a).mX = (h p).mX <;> by_cases hy : (h a).mY = (h p).mY <;>
          simp [hb, hpa, hx, hy, Mem.SetX_apply, Mem.SetY_apply]

/-- The heap after `Rectangle::Adjust` on a shape with distinct vertices. -/
theorem Rectangle.Adjust_apply (s : Shape) (hnd : s.mVertices.Nodup) (x y : ℚ) (p : ℕ)
    (h : Mem) (b : ℕ) :
    (Rectangle.Adjust s x y p h).1 b =
      if b = p then ⟨x, y⟩
      else if b ∈ s.mVertices then
        ⟨if (h b).mX = (h p).mX then x else (h b).mX,
         if (h b).mY = (h p).mY then y else (h b).mY⟩
      else h b := by
  unfold Rectangle.Adjust
  simp only
  rw [Mem.setXY_apply, Rectangle.AdjustLoop_apply x y p _ hnd]
  by_cases hb : b = p
  · simp [hb]
  · simp [hb]
/-! ## Rectangles -/

/-- C8, amended.  For an axis-aligned rectangle of non-zero width and height
(vertices `0`/`1` and `2`/`3` being opposite), `Rectangle::Adjust` on any corner
puts that corner at `(x, y)`, leaves the opposite corner where it was, and moves
each of the two remaining corners along the edge it shares with the opposite
corner: it keeps the coordinate it shares with the opposite corner and takes the
new `x` or `y` on the side it shares with the dragged corner. -/
theorem Rectangle_Adjust_keeps_opposite_corner (s : Shape) (h : Mem) (a0 a1 a2 a3 : ℕ) (x y : ℚ)
    (hv : s.mVertices = [a0, a1, a2, a3]) (hnd : [a0, a1, a2, a3].Nodup)
    (h2 : h a2 = ⟨(h a0).mX, (h a1).mY⟩) (h3 : h a3 = ⟨(h a1).mX, (h a0).mY⟩)
    (hx : (h a0).mX ≠ (h a1).mX) (hy : (h a0).mY ≠ (h a1).mY) :
    ((Rectangle.Adjust s x y a0 h).1 a0 = ⟨x, y⟩ ∧
      (Rectangle.Adjust s x y a0 h).1 a1 = h a1 ∧
      (Rectangle.Adjust s x y a0 h).1 a2 = ⟨x, (h a1).mY⟩ ∧
      (Rectangle.Adjust s x y a0 h).1 a3 = ⟨(h a1).mX, y⟩) ∧
    ((Rectangle.Adjust s x y a1 h).1 a1 = ⟨x, y⟩ ∧
      (Rectangle.Adjust s x y a1 h).1 a0 = h a0 ∧
      (Rectangle.Adjust s x y a1 h).1 a2 = ⟨(h a0).mX, y⟩ ∧
      (Rectangle.Adjust s x y a1 h).1 a3 = ⟨x, (h a0).mY⟩) ∧
    ((Rectangle.Adjust s x y a2 h).1 a2 = ⟨x, y⟩ ∧
      (Rectangle.Adjust s x y a2 h).1 a3 = h a3 ∧
      (Rectangle.Adjust s x y a2 h).1 a0 = ⟨x, (h a3).mY⟩ ∧
      (Rectangle.Adjust s x y a2 h).1 a1 = ⟨(h a3).mX, y⟩) ∧
    ((Rectangle.Adjust s x y a3 h).1 a3 = ⟨x, y⟩ ∧
      (Rectangle.Adjust s x y a3 h).1 a2 = h a2 ∧
      (Rectangle.Adjust s x y a3 h).1 a0 = ⟨(h a2).mX, y⟩ ∧
      (Rectangle.Adjust s x y a3 h).1 a1 = ⟨x, (h a2).mY⟩) := by
  have hnd' : s.mVertices.Nodup := hv ▸ hnd
  simp only [List.nodup_cons, List.mem_cons, List.mem_singleton, not_or, List.not_mem_nil,
    not_false_eq_true, List.nodup_nil, and_true] at hnd
  obtain ⟨⟨h01, h02, h03⟩, ⟨h12, h13⟩, h23⟩ := hnd
  have hx' : ¬ (h a1).mX = (h a0).mX := fun e => hx e.symm
  have hy' : ¬ (h a1).mY = (h a0).mY := fun e => hy e.symm
  have e0 : h a0 = ⟨(h a0).mX, (h a0).mY⟩ := rfl
  have e1 : h a1 = ⟨(h a1).mX, (h a1).mY⟩ := rfl
  simp only [Rectangle.Adjust_apply s hnd', hv, List.mem_cons, List.mem_singleton, h2, h3]
  refine ⟨⟨?_, ?_, ?_, ?_⟩, ⟨?_, ?_, ?_, ?_⟩, ⟨?_, ?_, ?_, ?_⟩, ⟨?_, ?_, ?_, ?_⟩⟩ <;>
    simp [h01, h02, h03, h12, h13, h23, Ne.symm h01, Ne.symm h02, Ne.symm h03, Ne.symm h12,
      Ne.symm h13, Ne.symm h23, hx, hy, hx', hy', h2, h3]

/-- Witness for C8: the rectangle with corners `(0, 0)` and `(10, 5)`, every
corner in turn dragged to `(7, 8)`. -/
theorem Rectangle_Adjust_keeps_opposite_corner_witness :
    ((rectangleFrom ⟨0, 0⟩ ⟨10, 5⟩).2.2.1.mVertices = [0, 1, 2, 3] ∧
      (rectangleFrom ⟨0, 0⟩ ⟨10, 5⟩).1 0 = ⟨0, 0⟩ ∧
      (rectangleFrom ⟨0, 0⟩ ⟨10, 5⟩).1 1 = ⟨10, 5⟩) ∧
    (Rectangle.Adjust (rectangleFrom ⟨0, 0⟩ ⟨10, 5⟩).2.2.1 7 8 0
        (rectangleFrom ⟨0, 0⟩ ⟨10, 5⟩).1).1 1 = ⟨10, 5⟩ ∧
    (Rectangle.Adjust (rectangleFrom ⟨0, 0⟩ ⟨10, 5⟩).2.2.1 7 8 0
        (rectangleFrom ⟨0, 0⟩ ⟨10, 5⟩).1).1 2 = ⟨7, 5⟩ :=
  ⟨by decide!,
   (Rectangle_Adjust_keeps_opposite_corner (rectangleFrom ⟨0, 0⟩ ⟨10, 5⟩).2.2.1
      (rectangleFrom ⟨0, 0⟩ ⟨10, 5⟩).1 0 1 2 3 7 8 (by decide!) (by decide) (by decide!)
      (by decide!) (by decide!) (by decide!)).1.2.1.trans (by decide!),
   (Rectangle_Adjust_keeps_opposite_corner (rectangleFrom ⟨0, 0⟩ ⟨10, 5⟩).2.2.1
      (rectangleFrom ⟨0, 0⟩ ⟨10, 5⟩).1 0 1 2 3 7 8 (by decide!) (by decide) (by decide!)
      (by decide!) (by decide!) (by decide!)).1.2.2.1.trans (by decide!)⟩

/-- Counterexample to C8 as stated: the rectangle built from `(0, 0)` and
`(0, 10)` has zero width; `Adjust(5, 5, ·)` on its first corner also drags the
opposite corner, from `(0, 10)` to `(5, 10)`. -/
theorem Rectangle_Adjust_drags_opposite_corner_when_collapsed :
    (rectangleFrom ⟨0, 0⟩ ⟨0, 10⟩).2.2.1.mVertices = [0, 1, 2, 3] ∧
    (rectangleFrom ⟨0, 0⟩ ⟨0, 10⟩).1 1 = ⟨0, 10⟩ ∧
    (Rectangle.Adjust (rectangleFrom ⟨0, 0⟩ ⟨0, 10⟩).2.2.1 5 5 0
        (rectangleFrom ⟨0, 0⟩ ⟨0, 10⟩).1).1 1 = ⟨5, 10⟩ := by
  decide!

theorem Shape.Move_apply_mem (s : Shape) (hnd : s.mVertices.Nodup) (x y : ℚ) (p : ℕ) (h : Mem)
    (b : ℕ) (hb : b ∈ s.mVertices) :
    Shape.Move s x y p h b = ⟨x + ((h b).mX - (h p).mX), y + ((h b).mY - (h p).mY)⟩ := by
  rw [Shape.Move_apply s hnd]
  by_cases hbp : b = p
  · subst hbp; simp
  · simp [hbp, hb]

theorem Rectangle.Adjust_apply_mem (s : Shape) (hnd : s.mVertices.Nodup) (x y : ℚ) (p : ℕ)
    (h : Mem) (b : ℕ) (hb : b ∈ s.mVertices) :
    (Rectangle.Adjust s x y p h).1 b =
      ⟨if (h b).mX = (h p).mX then x else (h b).mX,
       if (h b).mY = (h p).mY then y else (h b).mY⟩ := by
  rw [Rectangle.Adjust_apply s hnd]
  by_cases hbp : b = p
  · subst hbp; simp
  · simp [hbp, hb]

theorem Shape.GetPointAt_mem (s : Shape) (i : ℕ) (hi : i < s.mVertices.length) :
    s.GetPointAt i ∈ s.mVertices := by
  unfold Shape.GetPointAt
  rw [List.getD_eq_getElem _ _ hi]
  exact List.getElem_mem _
theorem Shape.new_vertices (points : List ℕ) (r g b : ℚ) (filled : Bool) :
    (Shape.new points r g b filled).mVertices = points := by
  have key : ∀ (l acc : List ℕ), l.foldl (fun acc p => acc ++ [p]) acc = acc ++ l := by
    intro l
    induction l with
    | nil => intro acc; simp
    | cons a l ih => intro acc; simp [ih]
  simp [Shape.new, key]

/-- What `Rectangle::Rectangle` returns for two points. -/
theorem Rectangle.new_two (h : Mem) (n p0 p1 : ℕ) (r g b : ℚ) (filled : Bool)
    (h0 : p0 < n) (h1 : p1 < n) :
    (Rectangle.new h n [p0, p1] r g b filled).2.2.1.mVertices = [p0, p1, n, n + 1] ∧
    (Rectangle.new h n [p0, p1] r g b filled).1 p0 = h p0 ∧
    (Rectangle.new h n [p0, p1] r g b filled).1 p1 = h p1 ∧
    (Rectangle.new h n [p0, p1] r g b filled).1 n = ⟨(h p0).mX, (h p1).mY⟩ ∧
    (Rectangle.new h n [p0, p1] r g b filled).1 (n + 1) = ⟨(h p1).mX, (h p0).mY⟩ := by
  have e0 : p0 ≠ n := by omega
  have e1 : p1 ≠ n := by omega
  have e0' : p0 ≠ n + 1 := by omega
  have e1' : p1 ≠ n + 1 := by omega
  simp [Rectangle.new, Shape.new_vertices, Rectangle.cacheBox, Shape.GetPointAt,
    Function.update_noteq, e0, e1, e0', e1']

/-- A change of the heap that acts on the `x` and on the `y` coordinates of the
vertices separately keeps the rectangle axis-aligned. -/
theorem Rectangle.axisAligned_of_coordinatewise (h h1 : Mem) (s s1 : Shape) (F G : ℚ → ℚ)
    (hlen : 4 ≤ s.mVertices.length) (hv : s1.mVertices = s.mVertices)
    (hmap : ∀ b ∈ s.mVertices, h1 b = ⟨F (h b).mX, G (h b).mY⟩)
    (hal : Rectangle.axisAligned h s) : Rectangle.axisAligned h1 s1 := by
  have g : ∀ i, s1.GetPointAt i = s.GetPointAt i := fun i => by simp [Shape.GetPointAt, hv]
  have m0 := hmap _ (Shape.GetPointAt_mem s 0 (by omega))
  have m1 := hmap _ (Shape.GetPointAt_mem s 1 (by omega))
  have m2 := hmap _ (Shape.GetPointAt_mem s 2 (by omega))
  have m3 := hmap _ (Shape.GetPointAt_mem s 3 (by omega))
  unfold Rectangle.axisAligned at hal ⊢
  rw [g, g, g, g, m0, m1, m2, m3, hal.1, hal.2]
  exact ⟨rfl, rfl⟩

/-- One call of `Rectangle::Adjust` or `Rectangle::Move` keeps the vertex list and
the axis alignment. -/
theorem RectOp.apply_axisAligned (c : Mem × Shape) (op : RectOp)
    (hnd : c.2.mVertices.Nodup) (hlen : 4 ≤ c.2.mVertices.length)
    (hal : Rectangle.axisAligned c.1 c.2) :
    (RectOp.apply c op).2.mVertices = c.2.mVertices ∧
    Rectangle.axisAligned (RectOp.apply c op).1 (RectOp.apply c op).2 := by
  cases op with
  | Adjust i x y =>
    refine ⟨rfl, ?_⟩
    exact Rectangle.axisAligned_of_coordinatewise c.1 _ c.2 _
      (fun u => if u = (c.1 (c.2.GetPointAt i)).mX then x else u)
      (fun v => if v = (c.1 (c.2.GetPointAt i)).mY then y else v) hlen rfl
      (fun b hb => Rectangle.Adjust_apply_mem c.2 hnd x y _ c.1 b hb) hal
  | Move i x y =>
    refine ⟨rfl, ?_⟩
    exact Rectangle.axisAligned_of_coordinatewise c.1 _ c.2 _
      (fun u => x + (u - (c.1 (c.2.GetPointAt i)).mX))
      (fun v => y + (v - (c.1 (c.2.GetPointAt i)).mY)) hlen rfl
      (fun b hb => Shape.Move_apply_mem c.2 hnd x y _ c.1 b hb) hal

/-- C10.  A rectangle built from two distinct points `p0`, `p1` has the vertex
list `[p0, p1, (p0.x, p1.y), (p1.x, p0.y)]` (the two new corners at the next two
free addresses), and after any sequence of `Rectangle::Adjust` and
`Rectangle::Move` calls on any of its four corners the vertex list is the same
and vertex `2` is still `(vertex0.x, vertex1.y)` and vertex `3` still
`(vertex1.x, vertex0.y)`. -/
theorem Rectangle_stays_axis_aligned (h : Mem) (n p0 p1 : ℕ) (r g b : ℚ) (filled : Bool)
    (hne : p0 ≠ p1) (h0 : p0 < n) (h1 : p1 < n) (ops : List RectOp) :
    (Rectangle.new h n [p0, p1] r g b filled).2.2.1.mVertices = [p0, p1, n, n + 1] ∧
    (Rectangle.new h n [p0, p1] r g b filled).1 p0 = h p0 ∧
    (Rectangle.new h n [p0, p1] r g b filled).1 p1 = h p1 ∧
    (Rectangle.new h n [p0, p1] r g b filled).1 n = ⟨(h p0).mX, (h p1).mY⟩ ∧
    (Rectangle.new h n [p0, p1] r g b filled).1 (n + 1) = ⟨(h p1).mX, (h p0).mY⟩ ∧
    (ops.foldl RectOp.apply ((Rectangle.new h n [p0, p1] r g b filled).1,
      (Rectangle.new h n [p0, p1] r g b filled).2.2.1)).2.mVertices = [p0, p1, n, n + 1] ∧
    Rectangle.axisAligned
      (ops.foldl RectOp.apply ((Rectangle.new h n [p0, p1] r g b filled).1,
        (Rectangle.new h n [p0, p1] r g b filled).2.2.1)).1
      (ops.foldl RectOp.apply ((Rectangle.new h n [p0, p1] r g b filled).1,
        (Rectangle.new h n [p0, p1] r g b filled).2.2.1)).2 := by
  obtain ⟨hv, e0, e1, e2, e3⟩ := Rectangle.new_two h n p0 p1 r g b filled h0 h1
  refine ⟨hv, e0, e1, e2, e3, ?_⟩
  have hinit : Rectangle.axisAligned (Rectangle.new h n [p0, p1] r g b filled).1
      (Rectangle.new h n [p0, p1] r g b filled).2.2.1 := by
    simp [Rectangle.axisAligned, Shape.GetPointAt, hv, e0, e1, e2, e3]
  have hnd : [p0, p1, n, n + 1].Nodup := by
    simp only [List.nodup_cons, List.mem_cons, List.mem_singleton, not_or, List.not_mem_nil,
      not_false_eq_true, List.nodup_nil, and_true]
    omega
  have key : ∀ (ops : List RectOp) (c : Mem × Shape), c.2.mVertices = [p0, p1, n, n + 1] →
      Rectangle.axisAligned c.1 c.2 →
      (ops.foldl RectOp.apply c).2.mVertices = [p0, p1, n, n + 1] ∧
      Rectangle.axisAligned (ops.foldl RectOp.apply c).1 (ops.foldl RectOp.apply c).2 := by
    intro ops
    induction ops with
    | nil => intro c hc hal; exact ⟨hc, hal⟩
    | cons op ops ih =>
      intro c hc hal
      have step := RectOp.apply_axisAligned c op (hc ▸ hnd) (by simp [hc]) hal
      rw [List.foldl_cons]
      exact ih _ (step.1.trans hc) step.2
  exact key ops _ hv hinit

/-- Witness for C10: the rectangle built from `(0, 0)` and `(10, 5)`, after an
`Adjust` of corner `2` and a `Move` by corner `1`. -/
theorem Rectangle_stays_axis_aligned_witness :
    Rectangle.axisAligned
      ([RectOp.Adjust 2 7 8, RectOp.Move 1 30 40].foldl RectOp.apply
        ((rectangleFrom ⟨0, 0⟩ ⟨10, 5⟩).1, (rectangleFrom ⟨0, 0⟩ ⟨10, 5⟩).2.2.1)).1
      ([RectOp.Adjust 2 7 8, RectOp.Move 1 30 40].foldl RectOp.apply
        ((rectangleFrom ⟨0, 0⟩ ⟨10, 5⟩).1, (rectangleFrom ⟨0, 0⟩ ⟨10, 5⟩).2.2.1)).2 :=
  (Rectangle_stays_axis_aligned (fun a => if a = 0 then ⟨0, 0⟩ else ⟨10, 5⟩) 2 0 1 0 0 0 false
    (by decide) (by decide) (by decide) [RectOp.Adjust 2 7 8, RectOp.Move 1 30 40]).2.2.2.2.2.2
/-! ## Hit testing and selection -/

theorem List.find?_first {α : Type} (f : α → Bool) (pre post : List α) (p : α)
    (hpre : ∀ q ∈ pre, f q = false) (hp : f p = true) :
    (pre ++ p :: post).find? f = some p := by
  induction pre with
  | nil => simp [hp]
  | cons a pre ih =>
    have ha : f a = false := hpre a (List.mem_cons_self _ _)
    simp only [List.cons_append, List.find?_cons, ha]
    exact ih (fun q hq => hpre q (List.mem_cons_of_mem _ hq))

theorem List.find?_none_of_all {α : Type} (f : α → Bool) (l : List α)
    (h : ∀ q ∈ l, f q = false) : l.find? f = none := by
  induction l with
  | nil => rfl
  | cons a l ih =>
    simp only [List.find?_cons, h a (List.mem_cons_self _ _)]
    exact ih (fun q hq => h q (List.mem_cons_of_mem _ hq))

theorem List.findSome?_first {α β : Type} (g : α → Option β) (pre post : List α) (a : α) (v : β)
    (hpre : ∀ b ∈ pre, g b = none) (ha : g a = some v) :
    (pre ++ a :: post).findSome? g = some v := by
  induction pre with
  | nil => simp [List.findSome?_cons, ha]
  | cons c pre ih =>
    have hc : g c = none := hpre c (List.mem_cons_self _ _)
    simp only [List.cons_append, List.findSome?_cons, hc]
    exact ih (fun q hq => hpre q (List.mem_cons_of_mem _ hq))

/-- The shape heap after `DeselectAllShapes`, in closed form. -/
theorem State.DeselectAllShapes_shapes (s : State) (b : ℕ) :
    s.DeselectAllShapes.shapes b =
      if b ∈ s.gShapes then (s.shapes b).SetSelected false else s.shapes b := by
  have key : ∀ (l : List ℕ) (sh : ℕ → Shape),
      l.foldl (fun sh a => Function.update sh a ((sh a).SetSelected false)) sh b =
        if b ∈ l then (sh b).SetSelected false else sh b := by
    intro l
    induction l with
    | nil => intro sh; simp
    | cons a l ih =>
      intro sh
      rw [List.foldl_cons, ih]
      by_cases hb : b = a
      · subst hb
        simp [Shape.SetSelected]
      · simp [hb, Function.update_noteq hb]
  exact key s.gShapes s.shapes

theorem State.hitTest_point (s : State) (x y : ℚ) (p : ℕ) (hp : s.firstPointHit x y p) :
    s.hitTest x y = some { s with gSelectedPoint := some p } := by
  obtain ⟨pre, post, hl, hpre, hc⟩ := hp
  unfold State.hitTest
  rw [hl, List.find?_first (fun p => (s.mem p).Contains x y) pre post p hpre hc]

theorem State.hitTest_shape (s : State) (x y : ℚ) (a p : ℕ) (hm : s.missesPoints x y)
    (hv : s.firstVertexHit x y a p) :
    s.hitTest x y = some
      { s with
        gSelectedPoint := some p
        gSelectedShape := some a
        shapes := Function.update ({ s with gSelectedPoint := some p }).DeselectAllShapes.shapes a
          ((({ s with gSelectedPoint := some p }).DeselectAllShapes.shapes a).SetSelected true) } := by
  obtain ⟨pre, post, vpre, vpost, hl, hpre, hvl, hvpre, hc⟩ := hv
  unfold State.hitTest
  rw [List.find?_none_of_all _ _ hm]
  have hsome : (fun a => ((s.shapes a).mVertices.find? (fun p => (s.mem p).Contains x y)).map
      (fun p => (a, p))) a = some (a, p) := by
    simp only [hvl, List.find?_first (fun p => (s.mem p).Contains x y) vpre vpost p hvpre hc,
      Option.map_some']
  have hnone : ∀ b ∈ pre, (fun a => ((s.shapes a).mVertices.find?
      (fun p => (s.mem p).Contains x y)).map (fun p => (a, p))) b = none := by
    intro b hb
    simp only [List.find?_none_of_all _ _ (hpre b hb), Option.map_none']
  simp only [hl, List.findSome?_first _ pre post a (a, p) hnone hsome]
  rfl

/-- What a button press over the canvas does when the hit test finds a point. -/
theorem mouse_down_hit (s t : State) (btn : MouseButton) (x y0 : ℤ)
    (hx : (x : ℚ) > CONTROL_PANEL_WIDTH) (hidle : idleDown s btn)
    (ht : s.hitTest x ((s.gScreenY - y0 : ℤ) : ℚ) = some t) :
    ∃ u, mouse s btn .GLUT_DOWN x y0 = .ok u ∧ u.dragging btn = true ∧
      u.gSelectedPoint = t.gSelectedPoint ∧ u.gSelectedShape = t.gSelectedShape ∧
      u.shapes = t.shapes ∧ u.gShapes = t.gShapes ∧ u.gPoints = t.gPoints ∧ u.mem = t.mem ∧
      u.nextShape = t.nextShape ∧ u.nextPoint = t.nextPoint := by
  rcases hidle with ⟨hb, hd⟩ | ⟨hb, hd⟩
  · subst hb
    refine ⟨{ t with gLeftDragging := true }, ?_, rfl, rfl, rfl, rfl, rfl, rfl, rfl, rfl, rfl⟩
    simp only [mouse, hx, if_true, State.leftDownCanvas, hd, Bool.not_false, ht]
    simp
  · subst hb
    refine ⟨{ t with gRightDragging := true }, ?_, rfl, rfl, rfl, rfl, rfl, rfl, rfl, rfl, rfl⟩
    simp only [mouse, hx, if_true, State.rightDownCanvas, hd, Bool.not_false, ht]
/-- C5.  A button press over the canvas, with no drag of that button in progress,
that hits no in-progress point but hits a vertex of a committed shape (`a` being
the first shape of `gShapes` with a vertex under the pointer and `p` its first
such vertex): afterwards `a` is the selected shape and its flag is set, every
other shape of the scene is deselected, `p` is the selected point, the drag is
active, the in-progress list is as before, no shape and no point has been
created, and nothing but the selection flags has changed in any shape. -/
theorem Select_by_vertex_hit (s : State) (btn : MouseButton) (x y0 : ℤ) (a p : ℕ)
    (hx : (x : ℚ) > CONTROL_PANEL_WIDTH) (hidle : idleDown s btn)
    (hm : s.missesPoints x ((s.gScreenY - y0 : ℤ) : ℚ))
    (hv : s.firstVertexHit x ((s.gScreenY - y0 : ℤ) : ℚ) a p) :
    ∃ u, mouse s btn .GLUT_DOWN x y0 = .ok u ∧
      u.gSelectedShape = some a ∧ (u.shapes a).mSelected = true ∧
      (∀ b ∈ u.gShapes, b ≠ a → (u.shapes b).mSelected = false) ∧
      u.gSelectedPoint = some p ∧ u.dragging btn = true ∧
      u.gPoints = s.gPoints ∧ u.gShapes = s.gShapes ∧
      u.nextShape = s.nextShape ∧ u.nextPoint = s.nextPoint ∧ u.mem = s.mem ∧
      (∀ b, (u.shapes b).SetSelected false = (s.shapes b).SetSelected false) := by
  obtain ⟨u, hu, hd, hsp, hss, hsh, hgs, hgp, hmem, hns, hnp⟩ :=
    mouse_down_hit s _ btn x y0 hx hidle (State.hitTest_shape s _ _ a p hm hv)
  refine ⟨u, hu, hss, ?_, ?_, hsp, hd, hgp, hgs, hns, hnp, hmem, ?_⟩
  · rw [hsh]; simp [Shape.SetSelected]
  · intro b hb hba
    rw [hgs] at hb
    rw [hsh]
    simp only [Function.update_noteq hba, State.DeselectAllShapes_shapes]
    simp [hb, Shape.SetSelected]
  · intro b
    rw [hsh]
    by_cases hba : b = a
    · subst hba
      simp only [Function.update_same, State.DeselectAllShapes_shapes]
      split_ifs <;> simp [Shape.SetSelected]
    · simp only [Function.update_noteq hba, State.DeselectAllShapes_shapes]
      split_ifs <;> simp [Shape.SetSelected]

/-- C6.  Hit-test order of a button press over the canvas (no drag of that button
in progress).  If some in-progress point contains the pointer, the first such
point becomes the selected point and no shape, no selection flag and not the
selected shape changes, whatever the shapes' vertices are.  If none does, the
selected point is the first containing vertex of the first shape of `gShapes`
that has one. -/
theorem Hit_test_order (s : State) (btn : MouseButton) (x y0 : ℤ)
    (hx : (x : ℚ) > CONTROL_PANEL_WIDTH) (hidle : idleDown s btn) :
    (∀ p, s.firstPointHit x ((s.gScreenY - y0 : ℤ) : ℚ) p →
      ∃ u, mouse s btn .GLUT_DOWN x y0 = .ok u ∧ u.gSelectedPoint = some p ∧
        u.shapes = s.shapes ∧ u.gSelectedShape = s.gSelectedShape ∧ u.gShapes = s.gShapes) ∧
    (s.missesPoints x ((s.gScreenY - y0 : ℤ) : ℚ) →
      ∀ a p, s.firstVertexHit x ((s.gScreenY - y0 : ℤ) : ℚ) a p →
        ∃ u, mouse s btn .GLUT_DOWN x y0 = .ok u ∧ u.gSelectedPoint = some p) := by
  constructor
  · intro p hp
    obtain ⟨u, hu, _, hsp, hss, hsh, hgs, _⟩ :=
      mouse_down_hit s _ btn x y0 hx hidle (State.hitTest_point s _ _ p hp)
    exact ⟨u, hu, hsp, hsh, hss, hgs⟩
  · intro hm a p hv
    obtain ⟨u, hu, _, hsp, _⟩ :=
      mouse_down_hit s _ btn x y0 hx hidle (State.hitTest_shape s _ _ a p hm hv)
    exact ⟨u, hu, hsp⟩
/-- Witness for C5: in a scene of three lines each line in turn is selected by a
left press on its first vertex; each time the line pressed is the only selected
one. -/
theorem Select_by_vertex_hit_witness :
    (∃ u, mouse threeLines .GLUT_LEFT_BUTTON .GLUT_DOWN 250 300 = .ok u ∧
      u.gSelectedShape = some 0 ∧ (u.shapes 0).mSelected = true ∧
      (u.shapes 1).mSelected = false ∧ (u.shapes 2).mSelected = false) ∧
    (∃ u, mouse threeLinesFirst .GLUT_LEFT_BUTTON .GLUT_DOWN 250 400 = .ok u ∧
      u.gSelectedShape = some 1 ∧ (u.shapes 1).mSelected = true ∧
      (u.shapes 0).mSelected = false ∧ (u.shapes 2).mSelected = false) ∧
    (∃ u, mouse threeLinesSecond .GLUT_LEFT_BUTTON .GLUT_DOWN 250 500 = .ok u ∧
      u.gSelectedShape = some 2 ∧ (u.shapes 2).mSelected = true ∧
      (u.shapes 0).mSelected = false ∧ (u.shapes 1).mSelected = false) := by
  refine ⟨?_, ?_, ?_⟩
  · obtain ⟨u, hu, h1, h2, h3, _, _, _, hg, _⟩ :=
      Select_by_vertex_hit threeLines .GLUT_LEFT_BUTTON 250 300 0 0 (by decide!)
        (Or.inl ⟨rfl, by decide!⟩) (by unfold State.missesPoints; decide!)
        ⟨[], [1, 2], [], [1], by decide!, by decide!, by decide!, by decide!, by decide!⟩
    have hg' : u.gShapes = [0, 1, 2] := hg.trans (by decide!)
    exact ⟨u, hu, h1, h2, h3 1 (by simp [hg']) (by decide), h3 2 (by simp [hg']) (by decide)⟩
  · obtain ⟨u, hu, h1, h2, h3, _, _, _, hg, _⟩ :=
      Select_by_vertex_hit threeLinesFirst .GLUT_LEFT_BUTTON 250 400 1 2 (by decide!)
        (Or.inl ⟨rfl, by decide!⟩) (by unfold State.missesPoints; decide!)
        ⟨[0], [2], [], [3], by decide!, by decide!, by decide!, by decide!, by decide!⟩
    have hg' : u.gShapes = [0, 1, 2] := hg.trans (by decide!)
    exact ⟨u, hu, h1, h2, h3 0 (by simp [hg']) (by decide), h3 2 (by simp [hg']) (by decide)⟩
  · obtain ⟨u, hu, h1, h2, h3, _, _, _, hg, _⟩ :=
      Select_by_vertex_hit threeLinesSecond .GLUT_LEFT_BUTTON 250 500 2 4 (by decide!)
        (Or.inl ⟨rfl, by decide!⟩) (by unfold State.missesPoints; decide!)
        ⟨[0, 1], [], [], [5], by decide!, by decide!, by decide!, by decide!, by decide!⟩
    have hg' : u.gShapes = [0, 1, 2] := hg.trans (by decide!)
    exact ⟨u, hu, h1, h2, h3 0 (by simp [hg']) (by decide), h3 1 (by simp [hg']) (by decide)⟩

/-- Witness for C6: an in-progress point at `(300, 200)` and the first vertex of a
line at `(301, 200)` both contain the pointer `(300, 200)`; the press selects
the in-progress point and changes no shape. -/
theorem Hit_test_order_witness :
    (pointNextToVertex.mem 2).Contains 300 200 = true ∧
    (pointNextToVertex.mem ((pointNextToVertex.shapes 0).GetPointAt 0)).Contains 300 200 = true ∧
    ∃ u, mouse pointNextToVertex .GLUT_LEFT_BUTTON .GLUT_DOWN 300 400 = .ok u ∧
      u.gSelectedPoint = some 2 ∧ u.shapes = pointNextToVertex.shapes ∧
      u.gSelectedShape = pointNextToVertex.gSelectedShape ∧
      u.gShapes = pointNextToVertex.gShapes :=
  ⟨by decide!, by decide!,
   (Hit_test_order pointNextToVertex .GLUT_LEFT_BUTTON 300 400 (by decide!)
      (Or.inl ⟨rfl, by decide!⟩)).1 2 ⟨[], [], by decide!, by decide!, by decide!⟩⟩
/-! ## Creating points and shapes -/

/-- The object and the heap `Rectangle::Rectangle` returns, field by field. -/
theorem Rectangle.new_spec (h : Mem) (n : ℕ) (pts : List ℕ) (r g b : ℚ) (filled : Bool) :
    (Rectangle.new h n pts r g b filled).2.2.1.mShapeType = .RECTANGLE ∧
    (Rectangle.new h n pts r g b filled).2.2.1.mSelected = true ∧
    (Rectangle.new h n pts r g b filled).2.2.1.mRed = r ∧
    (Rectangle.new h n pts r g b filled).2.2.1.mGreen = g ∧
    (Rectangle.new h n pts r g b filled).2.2.1.mBlue = b ∧
    (Rectangle.new h n pts r g b filled).2.2.1.mFilled = filled ∧
    (Rectangle.new h n pts r g b filled).2.2.1.mVertices =
      (if pts.length = 2 then pts ++ [n, n + 1] else pts) ∧
    (∀ q, q < n → (Rectangle.new h n pts r g b filled).1 q = h q) := by
  by_cases h2 : pts.length = 2
  · refine ⟨?_, ?_, ?_, ?_, ?_, ?_, ?_, ?_⟩
    · simp only [Rectangle.new, Shape.new_vertices, h2, if_true]
    · simp only [Rectangle.new, Shape.new_vertices, h2, if_true]; simp [Rectangle.cacheBox, Shape.new]
    · simp only [Rectangle.new, Shape.new_vertices, h2, if_true]; simp [Rectangle.cacheBox, Shape.new]
    · simp only [Rectangle.new, Shape.new_vertices, h2, if_true]; simp [Rectangle.cacheBox, Shape.new]
    · simp only [Rectangle.new, Shape.new_vertices, h2, if_true]; simp [Rectangle.cacheBox, Shape.new]
    · simp only [Rectangle.new, Shape.new_vertices, h2, if_true]; simp [Rectangle.cacheBox, Shape.new]
    · simp only [Rectangle.new, Shape.new_vertices, h2, if_true]
      simp [Rectangle.cacheBox, Shape.new_vertices]
    · intro q hq
      simp only [Rectangle.new, Shape.new_vertices, h2, if_true]
      rw [Function.update_noteq (by omega), Function.update_noteq (by omega)]
  · refine ⟨?_, ?_, ?_, ?_, ?_, ?_, ?_, ?_⟩
    · simp only [Rectangle.new, Shape.new_vertices, h2, if_false]
    · simp only [Rectangle.new, Shape.new_vertices, h2, if_false]; simp [Rectangle.cacheBox, Shape.new]
    · simp only [Rectangle.new, Shape.new_vertices, h2, if_false]; simp [Rectangle.cacheBox, Shape.new]
    · simp only [Rectangle.new, Shape.new_vertices, h2, if_false]; simp [Rectangle.cacheBox, Shape.new]
    · simp only [Rectangle.new, Shape.new_vertices, h2, if_false]; simp [Rectangle.cacheBox, Shape.new]
    · simp only [Rectangle.new, Shape.new_vertices, h2, if_false]; simp [Rectangle.cacheBox, Shape.new]
    · simp only [Rectangle.new, Shape.new_vertices, h2, if_false]
      simp [Rectangle.cacheBox, Shape.new_vertices]
    · intro q _
      simp only [Rectangle.new, Shape.new_vertices, h2, if_false]

/-- The state after `gShapes.push_back(new C(gPoints, r, g, b, filled))` and
`gPoints.clear()`, field by field. -/
theorem State.pushNew_spec (s : State) (m : ShapeType) (hm : m ≠ .NONE) (r g b : ℚ)
    (filled : Bool) :
    (s.pushNew m r g b filled).gPoints = [] ∧
    (s.pushNew m r g b filled).gShapes = s.gShapes ++ [s.nextShape] ∧
    (s.pushNew m r g b filled).nextShape = s.nextShape + 1 ∧
    (∀ a, a ≠ s.nextShape → (s.pushNew m r g b filled).shapes a = s.shapes a) ∧
    ((s.pushNew m r g b filled).shapes s.nextShape).mShapeType = m ∧
    ((s.pushNew m r g b filled).shapes s.nextShape).mSelected = true ∧
    ((s.pushNew m r g b filled).shapes s.nextShape).mRed = r ∧
    ((s.pushNew m r g b filled).shapes s.nextShape).mGreen = g ∧
    ((s.pushNew m r g b filled).shapes s.nextShape).mBlue = b ∧
    ((s.pushNew m r g b filled).shapes s.nextShape).mFilled = m.fillFlag filled ∧
    ((s.pushNew m r g b filled).shapes s.nextShape).mVertices =
      (if m = .RECTANGLE ∧ s.gPoints.length = 2 then
        s.gPoints ++ [s.nextPoint, s.nextPoint + 1] else s.gPoints) ∧
    (∀ q, q < s.nextPoint → (s.pushNew m r g b filled).mem q = s.mem q) ∧
    (s.pushNew m r g b filled).gSelectedShape = s.gSelectedShape ∧
    (s.pushNew m r g b filled).gSelectedPoint = s.gSelectedPoint ∧
    (s.pushNew m r g b filled).gLeftDragging = s.gLeftDragging ∧
    (s.pushNew m r g b filled).gRightDragging = s.gRightDragging := by
  have hup : ∀ (sh : ℕ → Shape) (v : Shape) (a : ℕ), a ≠ s.nextShape →
      Function.update sh s.nextShape v a = sh a := fun sh v a ha => Function.update_noteq ha v sh
  cases m with
  | NONE => exact absurd rfl hm
  | RECTANGLE =>
    obtain ⟨r1, r2, r3, r4, r5, r6, r7, r8⟩ :=
      Rectangle.new_spec s.mem s.nextPoint s.gPoints r g b filled
    refine ⟨rfl, rfl, rfl, fun a ha => ?_, ?_, ?_, ?_, ?_, ?_, ?_, ?_, ?_, rfl, rfl, rfl, rfl⟩
    · simp [State.pushNew, State.pushRectangle, State.pushShape, hup _ _ a ha]
    · simpa [State.pushNew, State.pushRectangle, State.pushShape] using r1
    · simpa [State.pushNew, State.pushRectangle, State.pushShape] using r2
    · simpa [State.pushNew, State.pushRectangle, State.pushShape] using r3
    · simpa [State.pushNew, State.pushRectangle, State.pushShape] using r4
    · simpa [State.pushNew, State.pushRectangle, State.pushShape] using r5
    · simpa [State.pushNew, State.pushRectangle, State.pushShape, ShapeType.fillFlag] using r6
    · simpa [State.pushNew, State.pushRectangle, State.pushShape] using r7
    · intro q hq
      simpa [State.pushNew, State.pushRectangle, State.pushShape] using r8 q hq
  | CIRCLE =>
    by_cases h2 : s.gPoints.length = 2
    · refine ⟨rfl, rfl, rfl, fun a ha => ?_, ?_, ?_, ?_, ?_, ?_, ?_, ?_, fun q _ => rfl,
        rfl, rfl, rfl, rfl⟩
      · simp [State.pushNew, State.pushShape, hup _ _ a ha]
      all_goals
        simp only [State.pushNew, State.pushShape, Circle.new, Shape.new_vertices]
        simp [Shape.new, Shape.new_vertices, ShapeType.fillFlag, h2]
    · refine ⟨rfl, rfl, rfl, fun a ha => ?_, ?_, ?_, ?_, ?_, ?_, ?_, ?_, fun q _ => rfl,
        rfl, rfl, rfl, rfl⟩
      · simp [State.pushNew, State.pushShape, hup _ _ a ha]
      all_goals
        simp only [State.pushNew, State.pushShape, Circle.new, Shape.new_vertices]
        simp [Shape.new, Shape.new_vertices, ShapeType.fillFlag, h2]
  | LINE =>
    refine ⟨rfl, rfl, rfl, fun a ha => ?_, ?_, ?_, ?_, ?_, ?_, ?_, ?_, fun q _ => rfl,
      rfl, rfl, rfl, rfl⟩
    · simp [State.pushNew, State.pushShape, hup _ _ a ha]
    all_goals
      simp only [State.pushNew, State.pushShape, Line.new, Shape.new_vertices]
      simp [Shape.new, Shape.new_vertices, ShapeType.fillFlag]
  | BEZIER_CURVE =>
    refine ⟨rfl, rfl, rfl, fun a ha => ?_, ?_, ?_, ?_, ?_, ?_, ?_, ?_, fun q _ => rfl,
      rfl, rfl, rfl, rfl⟩
    · simp [State.pushNew, State.pushShape, hup _ _ a ha]
    all_goals
      simp only [State.pushNew, State.pushShape, BezierCurve.new, Shape.new_vertices]
      simp [Shape.new, Shape.new_vertices, ShapeType.fillFlag]
  | TRIANGLE =>
    refine ⟨rfl, rfl, rfl, fun a ha => ?_, ?_, ?_, ?_, ?_, ?_, ?_, ?_, fun q _ => rfl,
      rfl, rfl, rfl, rfl⟩
    · simp [State.pushNew, State.pushShape, hup _ _ a ha]
    all_goals
      simp only [State.pushNew, State.pushShape, Triangle.new, Shape.new_vertices]
      simp [Shape.new, Shape.new_vertices, ShapeType.fillFlag]
  | PENTAGON =>
    refine ⟨rfl, rfl, rfl, fun a ha => ?_, ?_, ?_, ?_, ?_, ?_, ?_, ?_, fun q _ => rfl,
      rfl, rfl, rfl, rfl⟩
    · simp [State.pushNew, State.pushShape, hup _ _ a ha]
    all_goals
      simp only [State.pushNew, State.pushShape, Pentagon.new, Shape.new_vertices]
      simp [Shape.new, Shape.new_vertices, ShapeType.fillFlag]
/-- The state after a list of points has been pushed, field by field. -/
theorem State.pushPoints_spec (ps : List Point2D) (t : State) :
    (t.pushPoints ps).gPoints = t.gPoints ++ List.range' t.nextPoint ps.length ∧
    (t.pushPoints ps).nextPoint = t.nextPoint + ps.length ∧
    (∀ q, q < t.nextPoint → (t.pushPoints ps).mem q = t.mem q) ∧
    (List.range' t.nextPoint ps.length).map (t.pushPoints ps).mem = ps ∧
    (t.pushPoints ps).gShapes = t.gShapes ∧
    (t.pushPoints ps).shapes = t.shapes ∧
    (t.pushPoints ps).nextShape = t.nextShape ∧
    (t.pushPoints ps).cerr = t.cerr := by
  induction ps generalizing t with
  | nil => simp [State.pushPoints]
  | cons p ps ih =>
    obtain ⟨i1, i2, i3, i4, i5, i6, i7, i8⟩ := ih (t.pushPoint p.mX p.mY)
    have e : t.pushPoints (p :: ps) = (t.pushPoint p.mX p.mY).pushPoints ps := rfl
    have n1 : (t.pushPoint p.mX p.mY).nextPoint = t.nextPoint + 1 := rfl
    have n2 : (t.pushPoint p.mX p.mY).gPoints = t.gPoints ++ [t.nextPoint] := rfl
    have n3 : (t.pushPoint p.mX p.mY).mem = Function.update t.mem t.nextPoint ⟨p.mX, p.mY⟩ := rfl
    rw [e]
    rw [n1] at i1 i2 i3 i4
    refine ⟨?_, ?_, ?_, ?_, i5, i6, i7, i8⟩
    · rw [i1, n2]; simp [List.range'_succ]
    · rw [i2]; simp; omega
    · intro q hq
      rw [i3 q (by omega), n3, Function.update_noteq (by omega)]
    · simp only [List.length_cons, List.range'_succ, List.map_cons, i4]
      rw [i3 _ (by omega), n3]
      simp

theorem flat_length (ps : List Point2D) : (flat ps).length = 2 * ps.length := by
  induction ps with
  | nil => rfl
  | cons p ps ih => simp [flat, ih]; omega

/-- The first loop of the load branch on the numbers of a shape line: all points
are consumed and the four trailing numbers are left. -/
theorem State.loadPairs_flat_four (ps : List Point2D) (four : List ℚ) (h4 : four.length = 4)
    (t : State) : t.loadPairs (flat ps ++ four) = (t.pushPoints ps, four) := by
  induction ps generalizing t with
  | nil =>
    match four, h4 with
    | [a, b, c, d], _ => simp [flat, State.loadPairs, State.pushPoints]
  | cons p ps ih =>
    have hlen : (p.mX :: p.mY :: (flat ps ++ four)).length > 4 := by
      simp [flat_length, h4]
    show t.loadPairs (p.mX :: p.mY :: (flat ps ++ four)) = _
    rw [State.loadPairs, if_pos hlen]
    exact ih _

/-- The loop of the `NONE` case on the numbers of a list of points. -/
theorem State.loadRest_flat (ps : List Point2D) (t : State) :
    t.loadRest (flat ps) = t.pushPoints ps := by
  induction ps generalizing t with
  | nil => rfl
  | cons p ps ih =>
    simp only [flat, State.loadRest, ih]
    rfl

/-- The two loops of the load branch on a `NONE` line: together they push every
point of the line. -/
theorem State.loadPairs_loadRest_flat (ps : List Point2D) (t : State) :
    (t.loadPairs (flat ps)).1.loadRest (t.loadPairs (flat ps)).2 = t.pushPoints ps := by
  induction ps generalizing t with
  | nil => rfl
  | cons p ps ih =>
    by_cases hlen : (p.mX :: p.mY :: flat ps).length > 4
    · show ((t.loadPairs (p.mX :: p.mY :: flat ps)).1.loadRest
        (t.loadPairs (p.mX :: p.mY :: flat ps)).2) = _
      rw [State.loadPairs, if_pos hlen]
      exact ih _
    · show ((t.loadPairs (p.mX :: p.mY :: flat ps)).1.loadRest
        (t.loadPairs (p.mX :: p.mY :: flat ps)).2) = _
      rw [State.loadPairs, if_neg hlen]
      exact State.loadRest_flat (p :: ps) t

/-- The values of the coordinate tokens the save branch writes for a list of
points that are written without loss. -/
theorem State.save_vals (s : State) (vs : List ℕ)
    (hst : ∀ p ∈ vs, printsExactly (s.mem p).mX ∧ printsExactly (s.mem p).mY)
    (acc : List Token) :
    (vs.foldl (fun acc p => acc ++ [printDouble (s.mem p).mX, printDouble (s.mem p).mY])
      acc).map Token.val = acc.map Token.val ++ flat (vs.map s.mem) := by
  induction vs generalizing acc with
  | nil => simp [flat]
  | cons v vs ih =>
    have hv := hst v (List.mem_cons_self _ _)
    rw [List.foldl_cons, ih (fun p hp => hst p (List.mem_cons_of_mem _ hp))]
    simp only [List.map_append, List.map_cons, List.map_nil, flat, List.append_assoc,
      List.cons_append, List.nil_append]
    rw [hv.1, hv.2]

theorem ShapeType.ofInt_toInt (m : ShapeType) : ShapeType.ofInt m.toInt = m := by
  cases m <;> rfl

theorem ShapeType.toInt_ne_zero (m : ShapeType) (hm : m ≠ .NONE) :
    m.toInt ≠ ShapeType.NONE.toInt := by
  cases m <;> simp [ShapeType.toInt] at hm ⊢

/-- The integer of a shape type fits the C++ type `int`. -/
theorem ShapeType.toInt_inRange (m : ShapeType) :
    ¬ (m.toInt < INT_MIN ∨ INT_MAX < m.toInt) := by
  cases m <;> decide

/-- The load branch on the line the save branch writes for a well-formed shape
whose numbers are written without loss, when the line fits the buffer. -/
theorem State.loadLine_saveShape (s t : State) (a : ℕ)
    (hne : (s.shapes a).mShapeType ≠ .NONE)
    (hst : printsExactly (s.shapes a).mRed ∧ printsExactly (s.shapes a).mGreen ∧
      printsExactly (s.shapes a).mBlue ∧
      ∀ p ∈ (s.shapes a).mVertices,
        printsExactly (s.mem p).mX ∧ printsExactly (s.mem p).mY)
    (hfit : (s.saveShape a).restLen ≤ INPUT_STR_LEN - 1) :
    t.loadLine (s.saveShape a) =
      ((t.pushPoints ((s.shapes a).mVertices.map s.mem)).pushNew (s.shapes a).mShapeType
        (s.shapes a).mRed (s.shapes a).mGreen (s.shapes a).mBlue (s.shapes a).mFilled, true) := by
  have hfit' : ¬ (s.saveShape a).restLen > INPUT_STR_LEN - 1 := by omega
  have hvals : (s.saveShape a).toks.map Token.val =
      flat ((s.shapes a).mVertices.map s.mem) ++
        [(s.shapes a).mRed, (s.shapes a).mGreen, (s.shapes a).mBlue,
          if (s.shapes a).mFilled then 1 else 0] := by
    simp only [State.saveShape, List.map_append, State.save_vals s _ hst.2.2.2, List.map_nil,
      List.nil_append, List.map_cons, printBool]
    rw [hst.1, hst.2.1, hst.2.2.1]
  have htag : (s.saveShape a).tag = (s.shapes a).mShapeType.toInt := rfl
  have hp := State.loadPairs_flat_four ((s.shapes a).mVertices.map s.mem)
    [(s.shapes a).mRed, (s.shapes a).mGreen, (s.shapes a).mBlue,
      if (s.shapes a).mFilled then 1 else 0] rfl t
  have hrange : ¬ ((s.saveShape a).tag < INT_MIN ∨ INT_MAX < (s.saveShape a).tag) := by
    rw [htag]; exact ShapeType.toInt_inRange _
  unfold State.loadLine
  rw [if_neg hrange, if_neg hfit']
  simp only [hvals, htag, hp, if_neg (ShapeType.toInt_ne_zero _ hne), ShapeType.ofInt_toInt]
  cases (s.shapes a).mFilled <;> simp
theorem State.pushNew_nextPoint_le (s : State) (m : ShapeType) (r g b : ℚ) (filled : Bool) :
    s.nextPoint ≤ (s.pushNew m r g b filled).nextPoint := by
  cases m with
  | RECTANGLE =>
    by_cases h2 : s.gPoints.length = 2
    · simp [State.pushNew, State.pushRectangle, State.pushShape, Rectangle.new,
        Shape.new_vertices, h2]
    · simp [State.pushNew, State.pushRectangle, State.pushShape, Rectangle.new,
        Shape.new_vertices, h2]
  | _ => exact le_refl _

theorem List.map_congr_of_mem {α β : Type} (f g : α → β) (l : List α)
    (h : ∀ x ∈ l, f x = g x) : l.map f = l.map g :=
  List.map_congr_left h

/-- The view of a shape of the scene does not change when the two heaps keep
their content below the next free addresses. -/
theorem State.shapeView_of_agree (t u : State) (b : ℕ) (hb : b ∈ t.gShapes)
    (hal : t.allocated) (hs : ∀ a, a < t.nextShape → u.shapes a = t.shapes a)
    (hm : ∀ q, q < t.nextPoint → u.mem q = t.mem q) : u.shapeView b = t.shapeView b := by
  obtain ⟨h1, h2⟩ := hal b hb
  unfold State.shapeView
  rw [hs b h1, List.map_congr_of_mem u.mem t.mem _ (fun v hv => hm v (h2 v hv))]

/-- Loading one shape record: the points are pushed, the shape is created from
them and `gPoints` is cleared.  The new shape has the view the record
describes, and the shapes loaded before keep theirs. -/
theorem State.loadShape_view (t : State) (vals : List Point2D) (T : ShapeType) (r g b : ℚ)
    (f : Bool) (hT : T ≠ .NONE) (hrect : T = .RECTANGLE → vals.length ≠ 2)
    (hp : t.gPoints = []) (hal : t.allocated) :
    ((t.pushPoints vals).pushNew T r g b f).gPoints = [] ∧
    ((t.pushPoints vals).pushNew T r g b f).gShapes = t.gShapes ++ [t.nextShape] ∧
    ((t.pushPoints vals).pushNew T r g b f).allocated ∧
    ((t.pushPoints vals).pushNew T r g b f).shapeView t.nextShape =
      ⟨T, vals, r, g, b, T.fillFlag f⟩ ∧
    (∀ a ∈ t.gShapes, ((t.pushPoints vals).pushNew T r g b f).shapeView a = t.shapeView a) := by
  obtain ⟨i1, i2, i3, i4, i5, i6, i7, _⟩ := State.pushPoints_spec vals t
  obtain ⟨q1, q2, q3, q4, q5, _, q7, q8, q9, q10, q11, q12, _⟩ :=
    State.pushNew_spec (t.pushPoints vals) T hT r g b f
  have hnp := State.pushNew_nextPoint_le (t.pushPoints vals) T r g b f
  rw [hp, List.nil_append] at i1
  have hlen : (t.pushPoints vals).gPoints.length = vals.length := by simp [i1]
  have hv : (((t.pushPoints vals).pushNew T r g b f).shapes t.nextShape).mVertices =
      List.range' t.nextPoint vals.length := by
    rw [← i7, q11, hlen, i1]
    have : ¬ (T = .RECTANGLE ∧ vals.length = 2) := fun h => hrect h.1 h.2
    simp [this]
  have hmem : ∀ q, q < t.nextPoint + vals.length →
      ((t.pushPoints vals).pushNew T r g b f).mem q = (t.pushPoints vals).mem q := by
    intro q hq; exact q12 q (by rw [i2]; exact hq)
  have hshape : ∀ a, a < t.nextShape →
      ((t.pushPoints vals).pushNew T r g b f).shapes a = t.shapes a := by
    intro a ha
    rw [q4 a (by rw [i7]; omega), i6]
  have hmem' : ∀ q, q < t.nextPoint →
      ((t.pushPoints vals).pushNew T r g b f).mem q = t.mem q := by
    intro q hq
    rw [hmem q (by omega), i3 q hq]
  refine ⟨q1, by rw [q2, i5, i7], ?_, ?_, ?_⟩
  · intro a ha
    rw [q2, i5, i7, List.mem_append, List.mem_singleton] at ha
    rw [q3, i7]
    rcases ha with ha | ha
    · obtain ⟨h1, h2⟩ := hal a ha
      refine ⟨by omega, fun v hv => ?_⟩
      rw [hshape a h1] at hv
      have := h2 v hv
      rw [i2] at hnp
      omega
    · subst ha
      refine ⟨by omega, fun v hmemv => ?_⟩
      rw [hv, List.mem_range'_1] at hmemv
      rw [i2] at hnp
      omega
  · unfold State.shapeView
    rw [hv]
    rw [← i7] at *
    rw [q5, q7, q8, q9, q10]
    have : (List.range' t.nextPoint vals.length).map
        ((t.pushPoints vals).pushNew T r g b f).mem = vals := by
      rw [List.map_congr_of_mem _ (t.pushPoints vals).mem _
        (fun v hv => hmem v (by rw [List.mem_range'_1] at hv; omega)), i4]
    rw [this]
  · intro a ha
    exact State.shapeView_of_agree t _ a ha hal hshape hmem'
theorem ShapeType.fillFlag_of_wellFormed (sh : Shape) (hwf : sh.wellFormed) :
    sh.mShapeType.fillFlag sh.mFilled = sh.mFilled := by
  obtain ⟨_, _, h3⟩ := hwf
  cases hT : sh.mShapeType <;> simp [ShapeType.fillFlag]
  · exact h3 (Or.inl hT)
  · exact h3 (Or.inr hT)

/-- The load loop over the lines the save branch writes for a list of shapes:
every shape is loaded with the view it had. -/
theorem State.loadLoop_shapes (s : State) (as : List ℕ) (rest : List FileLine) (t : State)
    (hwf : ∀ a ∈ as, (s.shapes a).wellFormed)
    (hst : ∀ a ∈ as, printsExactly (s.shapes a).mRed ∧ printsExactly (s.shapes a).mGreen ∧
      printsExactly (s.shapes a).mBlue ∧
      ∀ p ∈ (s.shapes a).mVertices,
        printsExactly (s.mem p).mX ∧ printsExactly (s.mem p).mY)
    (hfit : ∀ a ∈ as, (s.saveShape a).restLen ≤ INPUT_STR_LEN - 1)
    (hp : t.gPoints = []) (hal : t.allocated) :
    ∃ t1 : State, t.loadLoop (as.map s.saveShape ++ rest) = t1.loadLoop rest ∧
      t1.gPoints = [] ∧
      t1.allocated ∧
      t1.gShapes.map t1.shapeView = t.gShapes.map t.shapeView ++ as.map s.shapeView := by
  induction as generalizing t with
  | nil => exact ⟨t, rfl, hp, hal, by simp⟩
  | cons a as ih =>
    have ha := List.mem_cons_self a as
    have hwfa := hwf a ha
    have hrect : (s.shapes a).mShapeType = .RECTANGLE →
        ((s.shapes a).mVertices.map s.mem).length ≠ 2 := by
      intro hT
      rw [List.length_map, hwfa.2.1, hT]
      decide
    obtain ⟨v1, v2, v3, v4, v5⟩ := State.loadShape_view t ((s.shapes a).mVertices.map s.mem)
      (s.shapes a).mShapeType (s.shapes a).mRed (s.shapes a).mGreen (s.shapes a).mBlue
      (s.shapes a).mFilled hwfa.1 hrect hp hal
    obtain ⟨t1, e1, e2, e3, e4⟩ := ih _
      (fun b hb => hwf b (List.mem_cons_of_mem _ hb))
      (fun b hb => hst b (List.mem_cons_of_mem _ hb))
      (fun b hb => hfit b (List.mem_cons_of_mem _ hb)) v1 v3
    refine ⟨t1, ?_, e2, e3, ?_⟩
    · rw [List.map_cons, List.cons_append, State.loadLoop,
        State.loadLine_saveShape s t a hwfa.1 (hst a ha) (hfit a ha)]
      exact e1
    · rw [e4, v2, List.map_append, List.map_cons, List.map_nil, v4,
        List.map_congr_of_mem _ t.shapeView _ v5, ShapeType.fillFlag_of_wellFormed _ hwfa]
      simp [State.shapeView]

/-- The lines the `SAVE_BUTTON` branch writes. -/
theorem State.Save_file (s : State) :
    s.Save.file = some (s.gShapes.map s.saveShape ++
      (if s.gPoints.isEmpty then [] else [s.savePoints])) := by
  have key : ∀ (l : List ℕ) (acc : List FileLine),
      l.foldl (fun acc a => acc ++ [s.saveShape a]) acc = acc ++ l.map s.saveShape := by
    intro l
    induction l with
    | nil => intro acc; simp
    | cons a l ih => intro acc; simp [ih]
  simp [State.Save, key]

/-- The load branch on the `NONE` line the save branch writes for in-progress
points that are written without loss, when the line fits the buffer. -/
theorem State.loadLine_savePoints (s t : State)
    (hst : ∀ p ∈ s.gPoints, printsExactly (s.mem p).mX ∧ printsExactly (s.mem p).mY)
    (hfit : s.savePoints.restLen ≤ INPUT_STR_LEN - 1) :
    t.loadLine s.savePoints = (t.pushPoints (s.gPoints.map s.mem), true) := by
  have hfit' : ¬ s.savePoints.restLen > INPUT_STR_LEN - 1 := by omega
  have hvals : s.savePoints.toks.map Token.val = flat (s.gPoints.map s.mem) := by
    simp only [State.savePoints, State.save_vals s _ hst, List.map_nil, List.nil_append]
  have htag : s.savePoints.tag = ShapeType.NONE.toInt := rfl
  have hrange : ¬ (s.savePoints.tag < INT_MIN ∨ INT_MAX < s.savePoints.tag) := by
    rw [htag]; exact ShapeType.toInt_inRange _
  unfold State.loadLine
  rw [if_neg hrange, if_neg hfit']
  simp only [hvals, htag, if_true, State.loadPairs_loadRest_flat]

/-- The load branch when the file can be opened. -/
theorem State.Load_some (s : State) (ls : List FileLine) (h : s.file = some ls) :
    s.Load = ({ s with gShapes := [], gPoints := [] }).loadLoop ls := by
  unfold State.Load
  split
  · rename_i h1; rw [h] at h1; cases h1
  · rename_i ls1 h1; rw [h] at h1; cases h1; rfl

/-- C1, amended.  Save followed by Load gives back the scene: the same number of
shapes in the same order, each with the same type, the same vertex coordinates,
the same colour and the same fill flag, and the same in-progress points.  This
holds for every scene whose shapes are as the constructors make them (vertex
counts Line 2, BezierCurve 4, Rectangle 4, Triangle 3, Pentagon 5, Circle 2),
whose coordinates and colour components are written without loss by the
six-significant-digit output of the stream, and whose lines fit the
`INPUT_STR_LEN - 1` characters `getline` can store. -/
theorem Save_then_Load_round_trip (s : State)
    (hwf : ∀ a ∈ s.gShapes, (s.shapes a).wellFormed) (hex : s.savesExactly)
    (hfit : s.Save.fileFits) : s.Save.Load.view = s.view := by
  have hfile := State.Save_file s
  have hfit' : ∀ l ∈ s.gShapes.map s.saveShape ++
      (if s.gPoints.isEmpty then [] else [s.savePoints]), l.restLen ≤ INPUT_STR_LEN - 1 := by
    intro l hl
    have := hfit l
    rw [hfile] at this
    exact this hl
  obtain ⟨t1, e1, e2, e3, e4⟩ := State.loadLoop_shapes s s.gShapes
    (if s.gPoints.isEmpty then [] else [s.savePoints])
    { s.Save with gShapes := [], gPoints := [] } hwf hex.1
    (fun a ha => hfit' _ (List.mem_append_left _ (List.mem_map_of_mem _ ha))) rfl
    (fun b hb => absurd hb (List.not_mem_nil b))
  have hload : s.Save.Load =
      t1.loadLoop (if s.gPoints.isEmpty then [] else [s.savePoints]) := by
    rw [State.Load_some _ _ hfile]
    exact e1
  rw [hload]
  simp only [List.map_nil, List.nil_append] at e4
  by_cases he : s.gPoints.isEmpty = true
  · have hnil : s.gPoints = [] := List.isEmpty_iff.mp he
    simp only [he, if_true, State.loadLoop, State.view, e4, e2, hnil, List.map_nil]
  · have hl : s.savePoints ∈ s.gShapes.map s.saveShape ++
        (if s.gPoints.isEmpty then [] else [s.savePoints]) := by
      simp [he]
    simp only [he, State.loadLoop, State.loadLine_savePoints s t1 hex.2 (hfit' _ hl), if_true]
    obtain ⟨i1, _, i3, i4, i5, i6, _⟩ := State.pushPoints_spec (s.gPoints.map s.mem) t1
    rw [e2, List.nil_append] at i1
    unfold State.view
    rw [i1, i4, i5, ← e4]
    congr 1
    exact List.map_congr_of_mem _ _ _ (fun b hb =>
      State.shapeView_of_agree t1 _ b hb e3 (fun a _ => by rw [i6]) i3)

/-- Witness for C1: one line, one filled circle and two in-progress points. -/
theorem Save_then_Load_round_trip_witness :
    lineCirclePoints.view =
      ([⟨.LINE, [⟨250, 300⟩, ⟨400, 300⟩], 1 / 4, 1 / 2, 3 / 4, false⟩,
        ⟨.CIRCLE, [⟨500, 200⟩, ⟨550, 200⟩], 1 / 4, 1 / 2, 3 / 4, true⟩],
       [⟨300, 500⟩, ⟨350, 500⟩]) ∧
    lineCirclePoints.Save.Load.view = lineCirclePoints.view :=
  ⟨by decide!,
   Save_then_Load_round_trip lineCirclePoints
    (by unfold Shape.wellFormed; decide!)
    (by unfold State.savesExactly printsExactly; decide!)
    (by unfold State.fileFits; decide!)⟩

/-- Counterexample to C1 as stated, in two scenes.  A line drawn after the red
slider has set the current red to `1 / 170` is saved with the red component
`0.00588235` and comes back from the file with that value instead of `1 / 170`.
And the `NONE` line of 250 in-progress points at `(0, 0)` is 1001 characters
long; `getline` cannot store it, the line is not processed, and the in-progress
points are lost. -/
theorem Round_trip_not_exact :
    (sliderLine.gShapes = [0] ∧ sliderLine.gPoints = [] ∧
      (sliderLine.shapes 0).mShapeType = .LINE ∧ (sliderLine.shapes 0).mVertices.length = 2 ∧
      (sliderLine.shapes 0).mRed = 1 / 170 ∧
      sliderLine.Save.Load.gShapes = [1] ∧
      (sliderLine.Save.Load.shapes 1).mRed = 588235 / 100000000 ∧
      sliderLine.Save.Load.view ≠ sliderLine.view) ∧
    (manyPoints.gShapes = [] ∧ manyPoints.gPoints.length = 250 ∧
      manyPoints.savePoints.restLen = 1001 ∧
      manyPoints.Save.Load.gPoints = [] ∧
      manyPoints.Save.Load.view ≠ manyPoints.view) := by
  decide!
/-! ## Reachable states -/

theorem run_eq_ok_okOr (s d : State) (es : List Event) (h : (run s es).isOk = true) :
    run s es = .ok (okOr (run s es) d) := by
  cases hr : run s es with
  | ok t => rfl
  | error e => rw [hr] at h; cases h

/-- C4, the code at a failing input.  The scene reached from the initial state by
drawing two lines and clicking `Save` and then `Load` holds two shapes, and both
are selected: every constructor selects the new shape and the load branch does
not deselect the others. -/
theorem Load_leaves_two_shapes_selected :
    Reachable twoLinesReloaded ∧ twoLinesReloaded.gShapes = [2, 3] ∧
    (twoLinesReloaded.shapes 2).mSelected = true ∧
    (twoLinesReloaded.shapes 3).mSelected = true :=
  ⟨⟨none, _, run_eq_ok_okOr _ _ _ (by decide!)⟩, by decide!, by decide!, by decide!⟩
/-! ## The cached box of a rectangle and the cached radius of a circle -/

/-- The four assignments that end the constructor, `Move` and `Adjust` cache the
box of the first two corners. -/
theorem Rectangle.cacheBox_boxOfCorners (h : Mem) (s : Shape) :
    Rectangle.boxOfCorners h (Rectangle.cacheBox h s) := by
  unfold Rectangle.boxOfCorners Rectangle.cacheBox Shape.GetPointAt
  simp only
  refine ⟨?_, ?_, ?_, ?_⟩
  · split_ifs with c
    · exact (min_eq_left (le_of_lt c)).symm
    · exact (min_eq_right (not_lt.mp c)).symm
  · split_ifs with c
    · exact (max_eq_left (le_of_lt c)).symm
    · exact (max_eq_right (not_lt.mp c)).symm
  · split_ifs with c
    · exact (min_eq_left (le_of_lt c)).symm
    · exact (min_eq_right (not_lt.mp c)).symm
  · split_ifs with c
    · exact (max_eq_left (le_of_lt c)).symm
    · exact (max_eq_right (not_lt.mp c)).symm

theorem Rectangle.boxOfCorners_setType (h : Mem) (s : Shape) (t : ShapeType)
    (hb : Rectangle.boxOfCorners h s) :
    Rectangle.boxOfCorners h { s with mShapeType := t } := hb

/-- C11.  After `Rectangle::Rectangle`, after `Rectangle::Move` and after
`Rectangle::Adjust` the cached `mLeft`, `mRight`, `mBottom`, `mTop` are the
minimum and maximum of the `x` and of the `y` coordinates of the first two
corner points as they stand afterwards; and with such a cache
`Rectangle::Contains(x, y)` holds exactly when `left < x < right` and
`bottom < y < top` for that box, so a point on the boundary is not contained. -/
theorem Rectangle_box_cached_and_Contains (h : Mem) (n : ℕ) (pts : List ℕ) (r g b : ℚ)
    (filled : Bool) (s : Shape) (x y : ℚ) (p : ℕ)
    (hpts : 2 ≤ pts.length) (hs : 2 ≤ s.mVertices.length) :
    Rectangle.boxOfCorners (Rectangle.new h n pts r g b filled).1
      (Rectangle.new h n pts r g b filled).2.2.1 ∧
    Rectangle.boxOfCorners (Rectangle.Move s x y p h).1 (Rectangle.Move s x y p h).2 ∧
    Rectangle.boxOfCorners (Rectangle.Adjust s x y p h).1 (Rectangle.Adjust s x y p h).2 ∧
    (∀ (h1 : Mem) (s1 : Shape), Rectangle.boxOfCorners h1 s1 → ∀ u v : ℚ,
      ((Rectangle.Contains s1 u v = true ↔
        min (h1 (s1.GetPointAt 0)).mX (h1 (s1.GetPointAt 1)).mX < u ∧
        u < max (h1 (s1.GetPointAt 0)).mX (h1 (s1.GetPointAt 1)).mX ∧
        min (h1 (s1.GetPointAt 0)).mY (h1 (s1.GetPointAt 1)).mY < v ∧
        v < max (h1 (s1.GetPointAt 0)).mY (h1 (s1.GetPointAt 1)).mY) ∧
       (u = s1.mLeft ∨ u = s1.mRight ∨ v = s1.mBottom ∨ v = s1.mTop →
        Rectangle.Contains s1 u v = false))) := by
  have _ := hpts
  have _ := hs
  refine ⟨?_, Rectangle.cacheBox_boxOfCorners _ _, Rectangle.cacheBox_boxOfCorners _ _, ?_⟩
  · unfold Rectangle.new
    simp only
    split_ifs <;>
      exact Rectangle.boxOfCorners_setType _ _ _ (Rectangle.cacheBox_boxOfCorners _ _)
  · intro h1 s1 hbox u v
    obtain ⟨e1, e2, e3, e4⟩ := hbox
    have key : Rectangle.Contains s1 u v = true ↔
        s1.mLeft < u ∧ u < s1.mRight ∧ s1.mBottom < v ∧ v < s1.mTop := by
      unfold Rectangle.Contains
      simp only [Bool.and_eq_true, decide_eq_true_eq, gt_iff_lt]
      tauto
    refine ⟨by rw [key, e1, e2, e3, e4], fun hb => ?_⟩
    cases hc : Rectangle.Contains s1 u v with
    | false => rfl
    | true =>
      obtain ⟨c1, c2, c3, c4⟩ := key.mp hc
      rcases hb with hb | hb | hb | hb
      · exact absurd c1 (by rw [hb]; exact lt_irrefl _)
      · exact absurd c2 (by rw [hb]; exact lt_irrefl _)
      · exact absurd c3 (by rw [hb]; exact lt_irrefl _)
      · exact absurd c4 (by rw [hb]; exact lt_irrefl _)

/-- Witness for C11: the rectangle built from `(10, 5)` and `(0, 0)` has the box
`0 … 10` by `0 … 5`; `(3, 2)` is contained, `(10, 2)` on its right edge is not. -/
theorem Rectangle_box_cached_and_Contains_witness :
    Rectangle.boxOfCorners (rectangleFrom ⟨10, 5⟩ ⟨0, 0⟩).1 (rectangleFrom ⟨10, 5⟩ ⟨0, 0⟩).2.2.1 ∧
    (rectangleFrom ⟨10, 5⟩ ⟨0, 0⟩).2.2.1.mLeft = 0 ∧
    (rectangleFrom ⟨10, 5⟩ ⟨0, 0⟩).2.2.1.mRight = 10 ∧
    Rectangle.Contains (rectangleFrom ⟨10, 5⟩ ⟨0, 0⟩).2.2.1 3 2 = true ∧
    Rectangle.Contains (rectangleFrom ⟨10, 5⟩ ⟨0, 0⟩).2.2.1 10 2 = false :=
  ⟨(Rectangle_box_cached_and_Contains (fun a => if a = 0 then ⟨10, 5⟩ else ⟨0, 0⟩) 2 [0, 1]
      0 0 0 false (rectangleFrom ⟨10, 5⟩ ⟨0, 0⟩).2.2.1 0 0 0 (by decide) (by decide!)).1,
   by decide!, by decide!, by decide!, by decide!⟩

/-- C18.  When the save file cannot be opened the `LOAD_BUTTON` branch changes
nothing at all, so the committed shapes and the in-progress points are the ones
from before; and a left click on a `Load` button of the control panel returns
the state it was given. -/
theorem Load_without_file_changes_nothing (s : State) (hf : s.file = none) :
    s.Load = s ∧ s.Load.gShapes = s.gShapes ∧ s.Load.gPoints = s.gPoints ∧
    s.Load.shapes = s.shapes ∧ s.Load.mem = s.mem ∧
    ∀ x y0 : ℤ, ¬ ((x : ℚ) > CONTROL_PANEL_WIDTH) →
      s.buttonAt x ((s.gScreenY - y0 : ℤ) : ℚ) = some .LOAD_BUTTON →
      mouse s .GLUT_LEFT_BUTTON .GLUT_DOWN x y0 = .ok s := by
  have hl : s.Load = s := by
    unfold State.Load
    rw [hf]
  refine ⟨hl, by rw [hl], by rw [hl], by rw [hl], by rw [hl], ?_⟩
  intro x y0 hx hb
  unfold State.buttonAt at hb
  simp only [mouse, hx, if_false, State.leftDownPanel]
  cases hfind : s.gButtons.find?
      (fun b => Rectangle.Contains b.toShape x ((s.gScreenY - y0 : ℤ) : ℚ)) with
  | none => rfl
  | some b =>
    rw [hfind] at hb
    simp only [Option.map_some', Option.some.injEq] at hb
    simp only [hb, hl]

/-- Witness for C18: in the initial state without a save file, a click on the
`Load` button leaves the state as it is. -/
theorem Load_without_file_changes_nothing_witness :
    (InitializeMyStuff none).file = none ∧
    mouse (InitializeMyStuff none) .GLUT_LEFT_BUTTON .GLUT_DOWN 100 386 =
      .ok (InitializeMyStuff none) :=
  ⟨rfl, (Load_without_file_changes_nothing (InitializeMyStuff none) rfl).2.2.2.2.2 100 386
    (by decide!) (by decide!)⟩

/-- C20.  The line scenario, from the initial empty scene in `LINE` mode.  Points
placed at `(250, 300)` and `(400, 300)` commit one line and leave the
in-progress list empty.  A left-button drag of the first vertex to `(250, 350)`
gives the end points `(250, 350)` and `(400, 350)`.  A click on `Undo`, with no
in-progress points, leaves no shape. -/
theorem Line_scenario :
    ((InitializeMyStuff none).gShapeMode = .LINE ∧ (InitializeMyStuff none).gShapes = [] ∧
      (InitializeMyStuff none).gPoints = []) ∧
    ((run (InitializeMyStuff none) (click 250 300 ++ click 400 300)).isOk = true ∧
      lineDrawn.gShapes = [0] ∧ lineDrawn.gPoints = [] ∧
      (lineDrawn.shapes 0).mShapeType = .LINE ∧
      (lineDrawn.shapes 0).mVertices.map lineDrawn.mem = [⟨250, 300⟩, ⟨400, 300⟩]) ∧
    ((run lineDrawn
        [.mouse .GLUT_LEFT_BUTTON .GLUT_DOWN 250 300, .motion 250 250,
         .mouse .GLUT_LEFT_BUTTON .GLUT_UP 250 250]).isOk = true ∧
      lineDragged.gShapes = [0] ∧ lineDragged.gPoints = [] ∧
      (lineDragged.shapes 0).mVertices.map lineDragged.mem = [⟨250, 350⟩, ⟨400, 350⟩]) ∧
    (lineDragged.buttonAt 100 192 = some .UNDO_BUTTON ∧
      (run lineDragged (click 100 408)).isOk = true ∧
      lineUndone.gShapes = [] ∧ lineUndone.gPoints = []) := by
  decide!
/-! ## The load branch on arbitrary records -/

/-- The first loop of the load branch when at most four numbers follow the
points (three or four when there are points): all points are consumed and the
trailing numbers are left. -/
theorem State.loadPairs_flat_tail (ps : List Point2D) (tail : List ℚ) (h4 : tail.length ≤ 4)
    (h3 : ps ≠ [] → 3 ≤ tail.length) (t : State) :
    t.loadPairs (flat ps ++ tail) = (t.pushPoints ps, tail) := by
  induction ps generalizing t with
  | nil =>
    match tail, h4 with
    | [], _ => rfl
    | [a], _ => rfl
    | [a, b], _ => simp [flat, State.loadPairs, State.pushPoints]
    | [a, b, c], _ => simp [flat, State.loadPairs, State.pushPoints]
    | [a, b, c, d], _ => simp [flat, State.loadPairs, State.pushPoints]
    | _ :: _ :: _ :: _ :: _ :: _, h => simp at h
  | cons p ps ih =>
    have h3' := h3 (List.cons_ne_nil _ _)
    have hlen : (p.mX :: p.mY :: (flat ps ++ tail)).length > 4 := by
      simp [flat_length]; omega
    show t.loadPairs (p.mX :: p.mY :: (flat ps ++ tail)) = _
    rw [State.loadPairs, if_pos hlen]
    exact ih (fun _ => h3') _

/-- The load branch on a line that fits the buffer, has the tag of a real type and
holds an even number of numbers, four at least: the points are pushed, the shape
is created from `gPoints` and the loop goes on. -/
theorem State.loadLine_record (t : State) (l : FileLine) (T : ShapeType) (ps : List Point2D)
    (r g b f : ℚ) (hT : T ≠ .NONE) (htag : l.tag = T.toInt)
    (hvals : l.vals = flat ps ++ [r, g, b, f]) (hfit : l.restLen ≤ INPUT_STR_LEN - 1) :
    t.loadLine l = ((t.pushPoints ps).pushNew T r g b (decide (f ≠ 0)), true) := by
  have hfit' : ¬ l.restLen > INPUT_STR_LEN - 1 := by omega
  have hp := State.loadPairs_flat_tail ps [r, g, b, f] (by simp) (fun _ => by simp) t
  have hrange : ¬ (l.tag < INT_MIN ∨ INT_MAX < l.tag) := by
    rw [htag]; exact ShapeType.toInt_inRange _
  unfold FileLine.vals at hvals
  unfold State.loadLine
  rw [if_neg hrange, if_neg hfit']
  simp only [hvals, htag, hp, if_neg (ShapeType.toInt_ne_zero _ hT), ShapeType.ofInt_toInt]

/-- The load branch on a `NONE` line that fits the buffer: its points are pushed
and the loop goes on. -/
theorem State.loadLine_none (t : State) (l : FileLine) (ps : List Point2D)
    (htag : l.tag = ShapeType.NONE.toInt) (hvals : l.vals = flat ps)
    (hfit : l.restLen ≤ INPUT_STR_LEN - 1) : t.loadLine l = (t.pushPoints ps, true) := by
  have hfit' : ¬ l.restLen > INPUT_STR_LEN - 1 := by omega
  have hrange : ¬ (l.tag < INT_MIN ∨ INT_MAX < l.tag) := by
    rw [htag]; exact ShapeType.toInt_inRange _
  unfold FileLine.vals at hvals
  unfold State.loadLine
  rw [if_neg hrange, if_neg hfit']
  simp only [hvals, htag, if_true, State.loadPairs_loadRest_flat]

/-- The load loop over the lines of well-formed records, started without
in-progress points: every record becomes a shape with the view the record
describes, at a fresh address. -/
theorem State.loadLoop_records (lines : List FileLine) (cs : List Record)
    (hholds : List.Forall₂ FileLine.holds lines cs) (hwf : ∀ c ∈ cs, c.wellFormed)
    (rest : List FileLine) (n0 p0 : ℕ) (t : State) (hp : t.gPoints = []) (hal : t.allocated)
    (hn : n0 ≤ t.nextShape) (hpn : p0 ≤ t.nextPoint) (hfresh : ∀ a ∈ t.gShapes, n0 ≤ a) :
    ∃ t1 : State, t.loadLoop (lines ++ rest) = t1.loadLoop rest ∧
      t1.gPoints = [] ∧
      t1.allocated ∧
      t1.gShapes.map t1.shapeView = t.gShapes.map t.shapeView ++ cs.map Record.view ∧
      n0 ≤ t1.nextShape ∧ p0 ≤ t1.nextPoint ∧ ∀ a ∈ t1.gShapes, n0 ≤ a := by
  induction hholds generalizing t with
  | nil => exact ⟨t, rfl, hp, hal, by simp, hn, hpn, hfresh⟩
  | @cons l c lines cs hl _ ih =>
    obtain ⟨htag, hvals, hfit⟩ := hl
    obtain ⟨hT, hcount⟩ := hwf c (List.mem_cons_self _ _)
    have hrect : c.type = .RECTANGLE → c.points.length ≠ 2 := by
      intro h
      rw [hcount, h]
      decide
    obtain ⟨v1, v2, v3, v4, v5⟩ := State.loadShape_view t c.points c.type c.red c.green c.blue
      (decide (c.filled ≠ 0)) hT hrect hp hal
    obtain ⟨_, i2, _, _, _, _, i7, _⟩ := State.pushPoints_spec c.points t
    obtain ⟨_, _, q3, _⟩ := State.pushNew_spec (t.pushPoints c.points) c.type hT c.red c.green
      c.blue (decide (c.filled ≠ 0))
    have hnp := State.pushNew_nextPoint_le (t.pushPoints c.points) c.type c.red c.green c.blue
      (decide (c.filled ≠ 0))
    obtain ⟨t1, e1, e2, e3, e4, e5, e6, e7⟩ := ih
      (fun b hb => hwf b (List.mem_cons_of_mem _ hb)) _ v1 v3
      (by rw [q3, i7]; omega) (by rw [i2] at hnp; omega)
      (fun a ha => by
        rw [v2, List.mem_append, List.mem_singleton] at ha
        rcases ha with ha | ha
        · exact hfresh a ha
        · rw [ha]; exact hn)
    refine ⟨t1, ?_, e2, e3, ?_, e5, e6, e7⟩
    · rw [List.cons_append, State.loadLoop,
        State.loadLine_record t l c.type c.points c.red c.green c.blue c.filled hT htag hvals hfit]
      exact e1
    · rw [e4, v2, List.map_append, List.map_cons, List.map_nil, v4,
        List.map_congr_of_mem _ t.shapeView _ v5]
      simp [Record.view]

/-- Load on a well-formed save file, from any scene: the shapes are those of the
records, the in-progress points those of the `NONE` line, and every address in
the scene is a fresh one. -/
theorem State.Load_wellFormedFile (s : State) (ls : List FileLine) (cs : List Record)
    (pend : List Point2D) (hwf : wellFormedFile ls cs pend) (hfile : s.file = some ls) :
    s.Load.view = (cs.map Record.view, pend) ∧
    (∀ a ∈ s.Load.gShapes, s.nextShape ≤ a) ∧
    (∀ p ∈ s.Load.gPoints, s.nextPoint ≤ p) := by
  obtain ⟨shapeLines, last, hls, hholds, hrec, hlast⟩ := hwf
  subst hls
  obtain ⟨t1, e1, e2, e3, e4, e5, e6, e7⟩ := State.loadLoop_records shapeLines cs hholds hrec
    last s.nextShape s.nextPoint s.cleared rfl (fun b hb => absurd hb (List.not_mem_nil b))
    (le_refl _) (le_refl _) (fun b hb => absurd hb (List.not_mem_nil b))
  have hload : s.Load = t1.loadLoop last := by
    rw [State.Load_some s _ hfile]
    exact e1
  have e4' : t1.gShapes.map t1.shapeView = cs.map Record.view := by
    rw [e4]; rfl
  rw [hload]
  rcases hlast with ⟨hpend, hnil⟩ | ⟨l, hl, htag, hvals, hfit⟩
  · subst hpend hnil
    refine ⟨?_, e7, ?_⟩
    · simp only [State.loadLoop, State.view, e4', e2, List.map_nil]
    · intro p hp
      simp only [State.loadLoop, e2] at hp
      exact absurd hp (List.not_mem_nil p)
  · subst hl
    simp only [State.loadLoop, State.loadLine_none t1 l pend htag hvals hfit, if_true]
    obtain ⟨i1, _, i3, i4, i5, i6, _⟩ := State.pushPoints_spec pend t1
    rw [e2, List.nil_append] at i1
    refine ⟨?_, ?_, ?_⟩
    · unfold State.view
      rw [i1, i4, i5, ← e4']
      congr 1
      exact List.map_congr_of_mem _ _ _ (fun b hb =>
        State.shapeView_of_agree t1 _ b hb e3 (fun a _ => by rw [i6]) i3)
    · rw [i5]; exact e7
    · intro p hp
      rw [i1, List.mem_range'_1] at hp
      omega

/-- C17.  Load replaces the scene.  For a well-formed save file, with the shape
records `cs` and the in-progress points `pend`, and any two scenes `s` and `s'`
in which Load is run on that file: after Load on `s` the committed shapes are
those the records describe, in order, and the in-progress points are `pend`;
Load on `s'` gives the same shapes and points; and every shape and every
in-progress point after Load on `s` is an object allocated by Load, at an
address that was still free in `s`, so none of them is an object of `s`. -/
theorem Load_replaces_scene (s s' : State) (ls : List FileLine) (cs : List Record)
    (pend : List Point2D) (hwf : wellFormedFile ls cs pend) (hfile : s.file = some ls)
    (hfile' : s'.file = some ls) :
    s.Load.view = (cs.map Record.view, pend) ∧
    s'.Load.view = s.Load.view ∧
    (∀ a ∈ s.Load.gShapes, s.nextShape ≤ a) ∧
    (∀ p ∈ s.Load.gPoints, s.nextPoint ≤ p) := by
  obtain ⟨a1, a2, a3⟩ := State.Load_wellFormedFile s ls cs pend hwf hfile
  obtain ⟨b1, _, _⟩ := State.Load_wellFormedFile s' ls cs pend hwf hfile'
  exact ⟨a1, by rw [a1, b1], a2, a3⟩
/-- The number of tokens the save branch writes for a list of points. -/
theorem State.save_length (s : State) (vs : List ℕ) (acc : List Token) :
    (vs.foldl (fun acc p => acc ++ [printDouble (s.mem p).mX, printDouble (s.mem p).mY])
      acc).length = acc.length + 2 * vs.length := by
  induction vs generalizing acc with
  | nil => simp
  | cons v vs ih =>
    rw [List.foldl_cons, ih]
    simp only [List.length_append, List.length_cons, List.length_nil]
    omega

/-- Witness for C17: Load of the file
```
1 250 300 400 300 1 0 0 0
0 300 500 
```
in a scene with a triangle and one in-progress point, and in the initial scene. -/
theorem Load_replaces_scene_witness :
    wellFormedFile lineAndPointFile [⟨.LINE, [⟨250, 300⟩, ⟨400, 300⟩], 1, 0, 0, 0⟩]
      [⟨300, 500⟩] ∧
    triangleDrawn.file = some lineAndPointFile ∧
    (InitializeMyStuff (some lineAndPointFile)).file = some lineAndPointFile ∧
    triangleDrawn.view =
      ([⟨.TRIANGLE, [⟨300, 500⟩, ⟨500, 500⟩, ⟨400, 300⟩], 1 / 4, 1 / 2, 3 / 4, true⟩],
        [⟨700, 100⟩]) ∧
    triangleDrawn.Load.view =
      ([Record.view ⟨.LINE, [⟨250, 300⟩, ⟨400, 300⟩], 1, 0, 0, 0⟩], [⟨300, 500⟩]) ∧
    (InitializeMyStuff (some lineAndPointFile)).Load.view = triangleDrawn.Load.view :=
  have hwf : wellFormedFile lineAndPointFile [⟨.LINE, [⟨250, 300⟩, ⟨400, 300⟩], 1, 0, 0, 0⟩]
      [⟨300, 500⟩] :=
    ⟨[fileLine 1 [250, 300, 400, 300, 1, 0, 0, 0]],
      [{ tag := 0, toks := [printDouble 300, printDouble 500], trailingBlank := true }], rfl,
      List.Forall₂.cons ⟨rfl, by decide!, by decide!⟩ List.Forall₂.nil,
      fun c hc => by
        rw [List.mem_singleton] at hc
        subst hc
        exact ⟨by decide, rfl⟩,
      Or.inr ⟨_, rfl, rfl, by decide!, by decide!⟩⟩
  have h := Load_replaces_scene triangleDrawn (InitializeMyStuff (some lineAndPointFile))
    lineAndPointFile [⟨.LINE, [⟨250, 300⟩, ⟨400, 300⟩], 1, 0, 0, 0⟩] [⟨300, 500⟩] hwf
    (by decide!) rfl
  ⟨hwf, by decide!, rfl, by decide!, h.1, h.2.1⟩

/-- C19, amended.  Take a scene without committed shapes and with `k ≥ 1`
in-progress points whose coordinates are written without loss by the
six-significant-digit output of the stream and whose line fits the
`INPUT_STR_LEN - 1` characters `getline` can store.  Save writes a file whose
only line is the tag `NONE` followed by the `2 k` numbers `x1 y1 ... xk yk` and
nothing else; Load of that file leaves no committed shape and `k` in-progress
points with the same coordinates in the same order. -/
theorem Save_then_Load_in_progress_points (s : State) (hsh : s.gShapes = [])
    (hpt : s.gPoints ≠ [])
    (hex : ∀ p ∈ s.gPoints, printsExactly (s.mem p).mX ∧ printsExactly (s.mem p).mY)
    (hfit : s.savePoints.restLen ≤ INPUT_STR_LEN - 1) :
    s.Save.file = some [s.savePoints] ∧
    s.savePoints.tag = ShapeType.NONE.toInt ∧
    s.savePoints.vals = flat (s.gPoints.map s.mem) ∧
    s.savePoints.toks.length = 2 * s.gPoints.length ∧
    s.Save.Load.gShapes = [] ∧
    s.Save.Load.gPoints.length = s.gPoints.length ∧
    s.Save.Load.gPoints.map s.Save.Load.mem = s.gPoints.map s.mem := by
  have hne : s.gPoints.isEmpty = false := by
    cases hg : s.gPoints with
    | nil => exact absurd hg hpt
    | cons a l => rfl
  have hfile : s.Save.file = some [s.savePoints] := by
    rw [State.Save_file, hsh, hne]
    rfl
  have hvals : s.savePoints.vals = flat (s.gPoints.map s.mem) := by
    simp only [FileLine.vals, State.savePoints, State.save_vals s _ hex, List.map_nil,
      List.nil_append]
  have hlen : s.savePoints.toks.length = 2 * s.gPoints.length := by
    simp only [State.savePoints, State.save_length, List.length_nil, Nat.zero_add]
  have hload : s.Save.Load = s.Save.cleared.pushPoints (s.gPoints.map s.mem) := by
    rw [State.Load_some _ _ hfile]
    show State.loadLoop s.Save.cleared [s.savePoints] = _
    simp only [State.loadLoop, State.loadLine_savePoints s _ hex hfit, if_true]
  obtain ⟨i1, _, _, i4, i5, _⟩ := State.pushPoints_spec (s.gPoints.map s.mem) s.Save.cleared
  have i1' : (s.Save.cleared.pushPoints (s.gPoints.map s.mem)).gPoints =
      List.range' s.Save.cleared.nextPoint (s.gPoints.map s.mem).length := i1
  refine ⟨hfile, rfl, hvals, hlen, ?_, ?_, ?_⟩
  · rw [hload, i5]; rfl
  · rw [hload, i1']; simp
  · rw [hload, i1', i4]
/-- Witness for C19, amended: three points placed in `PENTAGON` mode. -/
theorem Save_then_Load_in_progress_points_witness :
    threePoints.gShapeMode = .PENTAGON ∧
    threePoints.gShapes = [] ∧
    threePoints.gPoints.map threePoints.mem = [⟨300, 500⟩, ⟨350, 500⟩, ⟨400, 400⟩] ∧
    threePoints.savePoints =
      { tag := 0
        toks := [⟨300, 3⟩, ⟨500, 3⟩, ⟨350, 3⟩, ⟨500, 3⟩, ⟨400, 3⟩, ⟨400, 3⟩]
        trailingBlank := true } ∧
    threePoints.Save.file = some [threePoints.savePoints] ∧
    threePoints.Save.Load.gShapes = [] ∧
    threePoints.Save.Load.gPoints.map threePoints.Save.Load.mem =
      threePoints.gPoints.map threePoints.mem :=
  have h := Save_then_Load_in_progress_points threePoints (by decide!) (by decide!)
    (by unfold printsExactly; decide!) (by decide!)
  ⟨by decide!, by decide!, by decide!, by decide!, h.1, h.2.2.2.2.1, h.2.2.2.2.2.2⟩

/-- Counterexample to C19 as stated, in two scenes without committed shapes.
After Load of the file `0 0.1234567 5` there is one in-progress point
`(0.1234567, 5)`; Save writes the line `0 0.123457 5`, and Load of that file
leaves the point `(0.123457, 5)`.  After Load of a file with three `NONE` lines
of fifty points each there are 150 in-progress points; Save writes them on one
line of 601 characters after the tag, `getline` cannot store it and Load of that
file leaves no point. -/
theorem In_progress_points_not_reconstructed :
    (sevenDigitPoint.gShapes = [] ∧
      sevenDigitPoint.gPoints.map sevenDigitPoint.mem = [⟨1234567 / 10000000, 5⟩] ∧
      sevenDigitPoint.Save.file =
        some [{ tag := 0, toks := [⟨123457 / 1000000, 8⟩, ⟨5, 1⟩], trailingBlank := true }] ∧
      sevenDigitPoint.Save.Load.gShapes = [] ∧
      sevenDigitPoint.Save.Load.gPoints.map sevenDigitPoint.Save.Load.mem =
        [⟨123457 / 1000000, 5⟩]) ∧
    (crowdedPoints.gShapes = [] ∧ crowdedPoints.gPoints.length = 150 ∧
      crowdedPoints.savePoints.toks.length = 300 ∧
      crowdedPoints.savePoints.restLen = 601 ∧
      crowdedPoints.Save.Load.gShapes = [] ∧
      crowdedPoints.Save.Load.gPoints = []) := by
  decide!
/-! ## Undo, Clear and the mode commands -/

/-- A left click in the control panel is served by the first button that contains
the pointer: the branches of `Undo`, `Clear` and the mode buttons. -/
theorem mouse_panel_hit (s : State) (x y0 : ℤ) (b : Button)
    (hx : ¬ ((x : ℚ) > CONTROL_PANEL_WIDTH))
    (hb : s.buttonHit x ((s.gScreenY - y0 : ℤ) : ℚ) = some b) :
    (b.mButtonType = .UNDO_BUTTON →
      mouse s .GLUT_LEFT_BUTTON .GLUT_DOWN x y0 = .ok s.Undo) ∧
    (b.mButtonType = .CLEAR_BUTTON →
      mouse s .GLUT_LEFT_BUTTON .GLUT_DOWN x y0 = .ok s.Clear) ∧
    (b.mButtonType = .MODE_BUTTON →
      mouse s .GLUT_LEFT_BUTTON .GLUT_DOWN x y0 =
        .ok (s.SetShapeMode (ShapeType.ofInt b.mAssociatedID))) := by
  unfold State.buttonHit at hb
  refine ⟨fun ht => ?_, fun ht => ?_, fun ht => ?_⟩
  all_goals
    simp only [mouse, hx, if_false, State.leftDownPanel]
    rw [hb]
    simp only [ht]

/-- C21.  Undo pops the most recent item only.  With in-progress points
`ps ++ [p]` it leaves the points `ps` and the committed shapes as they are; with
no in-progress point and the shapes `as ++ [a]` it leaves the shapes `as`, in
order, and still no point; with neither it changes nothing.  The point and shape
objects themselves are not touched.  Clear leaves both sequences empty.  A left
click on an `Undo` or a `Clear` button of the control panel does just that. -/
theorem Undo_pops_most_recent (s : State) :
    (∀ ps p, s.gPoints = ps ++ [p] →
      s.Undo.gPoints = ps ∧ s.Undo.gShapes = s.gShapes) ∧
    (∀ as a, s.gPoints = [] → s.gShapes = as ++ [a] →
      s.Undo.gShapes = as ∧ s.Undo.gPoints = []) ∧
    (s.gPoints = [] → s.gShapes = [] → s.Undo = s) ∧
    (s.Undo.mem = s.mem ∧ s.Undo.shapes = s.shapes) ∧
    (s.Clear.gShapes = [] ∧ s.Clear.gPoints = []) ∧
    (∀ (x y0 : ℤ) (b : Button), ¬ ((x : ℚ) > CONTROL_PANEL_WIDTH) →
      s.buttonHit x ((s.gScreenY - y0 : ℤ) : ℚ) = some b →
      (b.mButtonType = .UNDO_BUTTON →
        mouse s .GLUT_LEFT_BUTTON .GLUT_DOWN x y0 = .ok s.Undo) ∧
      (b.mButtonType = .CLEAR_BUTTON →
        mouse s .GLUT_LEFT_BUTTON .GLUT_DOWN x y0 = .ok s.Clear)) := by
  refine ⟨?_, ?_, ?_, ?_, ⟨rfl, rfl⟩, ?_⟩
  · intro ps p hp
    have hne : s.gPoints.isEmpty = false := by
      rw [hp]; cases ps <;> rfl
    simp [State.Undo, hne, hp]
  · intro as a hp hs
    have hne : s.gShapes.isEmpty = false := by
      rw [hs]; cases as <;> rfl
    simp [State.Undo, hne, hp, hs]
  · intro hp hs
    simp [State.Undo, hp, hs]
  · unfold State.Undo
    split_ifs <;> exact ⟨rfl, rfl⟩
  · intro x y0 b hx hb
    obtain ⟨h1, h2, _⟩ := mouse_panel_hit s x y0 b hx hb
    exact ⟨h1, h2⟩

/-- Witness for C21: in the scene of the line and circle with two in-progress
points, Undo removes the second point; a click on the `Undo` button does it. -/
theorem Undo_pops_most_recent_witness :
    lineCirclePoints.gPoints = [4] ++ [5] ∧
    lineCirclePoints.gShapes = [0, 1] ∧
    lineCirclePoints.Undo.gPoints = [4] ∧
    lineCirclePoints.Undo.gShapes = lineCirclePoints.gShapes ∧
    lineCirclePoints.Undo.Undo.Undo.gShapes = [0] ∧
    mouse lineCirclePoints .GLUT_LEFT_BUTTON .GLUT_DOWN 100 408 = .ok lineCirclePoints.Undo :=
  have h := Undo_pops_most_recent lineCirclePoints
  have h1 := h.1 [4] 5 (by decide!)
  have hb : lineCirclePoints.buttonHit (100 : ℤ)
      ((lineCirclePoints.gScreenY - 408 : ℤ) : ℚ) =
      some (rowButton 600 19 DEFAULT_BUTTON_RED DEFAULT_BUTTON_GREEN DEFAULT_BUTTON_BLUE
        .UNDO_BUTTON ShapeType.NONE.toInt) := by decide!
  ⟨by decide!, by decide!, h1.1, h1.2, by decide!,
    (h.2.2.2.2.2 100 408 _ (by decide!) hb).1 rfl⟩
/-- The callback `keyboard` on a mode key: the mode is set with `SetShapeMode`. -/
theorem keyboard_modeKey (s : State) (c : Char) (hc : isModeKey c) :
    keyboard s c = .ok (s.SetShapeMode (keyMode c)) := by
  unfold isModeKey at hc
  rcases hc with h | h | h | h | h | h | h | h | h | h | h | h <;> subst h <;> rfl

/-- The callback `keyboard` on a key that is neither Escape nor a mode key. -/
theorem keyboard_otherKey (s : State) (c : Char) (hesc : c ≠ Char.ofNat 27)
    (hc : ¬ isModeKey c) : keyboard s c = .ok s := by
  unfold isModeKey at hc
  simp only [not_or] at hc
  obtain ⟨h1, h2, h3, h4, h5, h6, h7, h8, h9, h10, h11, h12⟩ := hc
  simp only [keyboard, hesc, h1, h2, h3, h4, h5, h6, h7, h8, h9, h10, h11, h12, or_self,
    if_false]

/-- C30.  Every command that sets the drawing mode leaves the in-progress list
empty, the committed shapes, the shape objects and the point objects as they
are, and the mode set to the one asked for, also when that mode is the current
one: `SetShapeMode` itself, a mode key `L B R T P C` in either case, and a left
click on a mode button of the control panel.  A key that is neither Escape nor a
mode key returns the state it was given. -/
theorem SetShapeMode_discards_points (s : State) :
    (∀ m, (s.SetShapeMode m).gPoints = [] ∧ (s.SetShapeMode m).gShapes = s.gShapes ∧
      (s.SetShapeMode m).shapes = s.shapes ∧ (s.SetShapeMode m).mem = s.mem ∧
      (s.SetShapeMode m).gShapeMode = m) ∧
    (s.SetShapeMode s.gShapeMode).gPoints = [] ∧
    (∀ c, isModeKey c → ∃ t, keyboard s c = .ok t ∧ t.gPoints = [] ∧ t.gShapes = s.gShapes ∧
      t.shapes = s.shapes ∧ t.mem = s.mem ∧ t.gShapeMode = keyMode c) ∧
    (∀ (x y0 : ℤ) (b : Button), ¬ ((x : ℚ) > CONTROL_PANEL_WIDTH) →
      s.buttonHit x ((s.gScreenY - y0 : ℤ) : ℚ) = some b → b.mButtonType = .MODE_BUTTON →
      ∃ t, mouse s .GLUT_LEFT_BUTTON .GLUT_DOWN x y0 = .ok t ∧ t.gPoints = [] ∧
        t.gShapes = s.gShapes ∧ t.shapes = s.shapes ∧ t.mem = s.mem ∧
        t.gShapeMode = ShapeType.ofInt b.mAssociatedID) ∧
    (∀ c, c ≠ Char.ofNat 27 → ¬ isModeKey c → keyboard s c = .ok s) := by
  refine ⟨fun m => ⟨rfl, rfl, rfl, rfl, rfl⟩, rfl, ?_, ?_, ?_⟩
  · intro c hc
    exact ⟨_, keyboard_modeKey s c hc, rfl, rfl, rfl, rfl, rfl⟩
  · intro x y0 b hx hb ht
    exact ⟨_, (mouse_panel_hit s x y0 b hx hb).2.2 ht, rfl, rfl, rfl, rfl, rfl⟩
  · intro c hesc hc
    exact keyboard_otherKey s c hesc hc

/-- Witness for C30: in the scene with three in-progress points placed in
`PENTAGON` mode, the key `p`, which asks for the current mode, and a click on the
`Line` button both empty the in-progress list; the key `x` changes nothing. -/
theorem SetShapeMode_discards_points_witness :
    threePoints.gShapeMode = .PENTAGON ∧ threePoints.gPoints.length = 3 ∧
    (∃ t, keyboard threePoints 'p' = .ok t ∧ t.gPoints = [] ∧
      t.gShapes = threePoints.gShapes ∧ t.shapes = threePoints.shapes ∧
      t.mem = threePoints.mem ∧ t.gShapeMode = keyMode 'p') ∧
    (∃ t, mouse threePoints .GLUT_LEFT_BUTTON .GLUT_DOWN 100 34 = .ok t ∧ t.gPoints = [] ∧
      t.gShapes = threePoints.gShapes ∧ t.shapes = threePoints.shapes ∧
      t.mem = threePoints.mem ∧ t.gShapeMode = ShapeType.ofInt ShapeType.LINE.toInt) ∧
    keyboard threePoints 'x' = .ok threePoints :=
  have h := SetShapeMode_discards_points threePoints
  have hb : threePoints.buttonHit (100 : ℤ) ((threePoints.gScreenY - 34 : ℤ) : ℚ) =
      some (rowButton 600 2 DEFAULT_BUTTON_RED DEFAULT_BUTTON_GREEN DEFAULT_BUTTON_BLUE
        .MODE_BUTTON ShapeType.LINE.toInt) := by decide!
  ⟨by decide!, by decide!,
    h.2.2.1 'p' (by unfold isModeKey; decide),
    h.2.2.2.1 100 34 _ (by decide!) hb rfl,
    h.2.2.2.2 'x' (by decide) (by unfold isModeKey; decide)⟩

/-! ## Drag routing -/

/-- C22.  A pointer-move to `(x, y)` during a drag, with the dragged point `p`.
When a shape is selected (`gSelectedShape` is set) the move is passed to that
shape: to its `Move` when the left button drags and the right one does not, to
its `Adjust` when the right button drags; the heap and the shape are those the
call returns.  When no shape is selected the point `p` is set to `(x, y)`, and
no other point, no shape and neither list changes. -/
theorem Drag_routing (s : State) (x y0 : ℤ) (p : ℕ) (hp : s.gSelectedPoint = some p) :
    (∀ a, s.gSelectedShape = some a → s.gLeftDragging = true → s.gRightDragging = false →
      motion s x y0 = .ok { s with
        mem := ((s.shapes a).callMove x ((s.gScreenY - y0 : ℤ) : ℚ) p s.mem).1
        shapes := Function.update s.shapes a
          ((s.shapes a).callMove x ((s.gScreenY - y0 : ℤ) : ℚ) p s.mem).2 }) ∧
    (∀ a, s.gSelectedShape = some a → s.gRightDragging = true →
      motion s x y0 = .ok { s with
        mem := ((s.shapes a).callAdjust x ((s.gScreenY - y0 : ℤ) : ℚ) p s.mem).1
        shapes := Function.update s.shapes a
          ((s.shapes a).callAdjust x ((s.gScreenY - y0 : ℤ) : ℚ) p s.mem).2 }) ∧
    (s.gSelectedShape = none → s.gLeftDragging = true ∨ s.gRightDragging = true →
      ∃ t, motion s x y0 = .ok t ∧
        t.mem p = ⟨x, ((s.gScreenY - y0 : ℤ) : ℚ)⟩ ∧ (∀ q, q ≠ p → t.mem q = s.mem q) ∧
        t.shapes = s.shapes ∧ t.gPoints = s.gPoints ∧ t.gShapes = s.gShapes) := by
  refine ⟨fun a ha hl hr => ?_, fun a ha hr => ?_, fun hn hd => ?_⟩
  · simp only [motion, hr, hl, ha, hp, Bool.false_eq_true, if_false, if_true]
  · simp only [motion, hr, ha, hp, if_true]
  · have hm : motion s x y0 =
        .ok { s with mem := s.mem.setXY p x ((s.gScreenY - y0 : ℤ) : ℚ) } := by
      by_cases hr : s.gRightDragging = true
      · simp only [motion, hr, hn, hp, if_true]
      · have hl : s.gLeftDragging = true := hd.resolve_right hr
        unfold motion
        rw [if_neg hr, if_pos hl]
        simp only [hn, hp]
    refine ⟨_, hm, ?_, fun q hq => ?_, rfl, rfl, rfl⟩
    · show s.mem.setXY p x ((s.gScreenY - y0 : ℤ) : ℚ) p = _
      rw [Mem.setXY_apply, if_pos rfl]
    · show s.mem.setXY p x ((s.gScreenY - y0 : ℤ) : ℚ) q = _
      rw [Mem.setXY_apply, if_neg hq]
/-- Witness for C22: the left button is down on the first vertex of the line
`(250, 300)–(400, 300)`; a pointer-move is passed to `Move` of the line. -/
theorem Drag_routing_witness :
    vertexPressed.gSelectedPoint = some 0 ∧ vertexPressed.gSelectedShape = some 0 ∧
    vertexPressed.gLeftDragging = true ∧ vertexPressed.gRightDragging = false ∧
    motion vertexPressed 250 250 = .ok { vertexPressed with
      mem := ((vertexPressed.shapes 0).callMove (250 : ℤ)
        ((vertexPressed.gScreenY - 250 : ℤ) : ℚ) 0 vertexPressed.mem).1
      shapes := Function.update vertexPressed.shapes 0
        ((vertexPressed.shapes 0).callMove (250 : ℤ)
          ((vertexPressed.gScreenY - 250 : ℤ) : ℚ) 0 vertexPressed.mem).2 } ∧
    ((vertexPressed.shapes 0).callMove (250 : ℤ)
      ((vertexPressed.gScreenY - 250 : ℤ) : ℚ) 0 vertexPressed.mem).1 1 = ⟨400, 350⟩ :=
  ⟨by decide!, by decide!, by decide!, by decide!,
    (Drag_routing vertexPressed 250 250 0 (by decide!)).1 0 (by decide!) (by decide!)
      (by decide!),
    by decide!⟩

/-! ## Shapes under `Move` and `Adjust`, and the curve -/

/-- C27.  A rectangle with four distinct corner points that is axis-aligned and
has zero width (its first two corners have the same `x`) has, after
`Rectangle::Adjust` of any of its corners to any `(x, y)`, all four corners at
the abscissa `x` and the cached width zero.  In the same way a rectangle of zero
height has all four corners at the ordinate `y` and the cached height zero. -/
theorem Collapsed_rectangle_stays_collapsed (s : Shape) (h : Mem) (a0 a1 a2 a3 c : ℕ)
    (x y : ℚ) (hv : s.mVertices = [a0, a1, a2, a3]) (hnd : s.mVertices.Nodup)
    (hal : Rectangle.axisAligned h s) (hc : c ∈ s.mVertices) :
    ((h a0).mX = (h a1).mX →
      (∀ v ∈ s.mVertices, ((Rectangle.Adjust s x y c h).1 v).mX = x) ∧
      Rectangle.GetLength (Rectangle.Adjust s x y c h).2 = 0) ∧
    ((h a0).mY = (h a1).mY →
      (∀ v ∈ s.mVertices, ((Rectangle.Adjust s x y c h).1 v).mY = y) ∧
      Rectangle.GetHeight (Rectangle.Adjust s x y c h).2 = 0) := by
  obtain ⟨h2, h3⟩ := hal
  simp only [Shape.GetPointAt, hv, List.getD_cons_zero, List.getD_cons_succ] at h2 h3
  constructor
  · intro hw
    have hx : ∀ v ∈ s.mVertices, (h v).mX = (h a0).mX := by
      intro v hvm
      rw [hv] at hvm
      simp only [List.mem_cons, List.mem_singleton, List.not_mem_nil, or_false] at hvm
      rcases hvm with e | e | e | e <;> subst e
      · rfl
      · exact hw.symm
      · rw [h2]
      · rw [h3]; exact hw.symm
    have hall : ∀ v ∈ s.mVertices, ((Rectangle.Adjust s x y c h).1 v).mX = x := by
      intro v hvm
      rw [Rectangle.Adjust_apply s hnd x y c h v]
      by_cases e : v = c
      · rw [if_pos e]
      · rw [if_neg e, if_pos hvm]
        simp only [hx v hvm, hx c hc, if_true]
    refine ⟨hall, ?_⟩
    have e0 := hall a0 (by rw [hv]; simp)
    have e1 := hall a1 (by rw [hv]; simp)
    simp only [Rectangle.GetLength, Rectangle.Adjust, Rectangle.cacheBox, Shape.GetPointAt,
      hv, List.getD_cons_zero, List.getD_cons_succ] at e0 e1 ⊢
    rw [e0, e1]
    simp
  · intro hw
    have hy : ∀ v ∈ s.mVertices, (h v).mY = (h a0).mY := by
      intro v hvm
      rw [hv] at hvm
      simp only [List.mem_cons, List.mem_singleton, List.not_mem_nil, or_false] at hvm
      rcases hvm with e | e | e | e <;> subst e
      · rfl
      · exact hw.symm
      · rw [h2]; exact hw.symm
      · rw [h3]
    have hall : ∀ v ∈ s.mVertices, ((Rectangle.Adjust s x y c h).1 v).mY = y := by
      intro v hvm
      rw [Rectangle.Adjust_apply s hnd x y c h v]
      by_cases e : v = c
      · rw [if_pos e]
      · rw [if_neg e, if_pos hvm]
        simp only [hy v hvm, hy c hc, if_true]
    refine ⟨hall, ?_⟩
    have e0 := hall a0 (by rw [hv]; simp)
    have e1 := hall a1 (by rw [hv]; simp)
    simp only [Rectangle.GetHeight, Rectangle.Adjust, Rectangle.cacheBox, Shape.GetPointAt,
      hv, List.getD_cons_zero, List.getD_cons_succ] at e0 e1 ⊢
    rw [e0, e1]
    simp
/-- Witness for C27: the rectangle built from `(5, 0)` and `(5, 10)` has zero
width; after its first corner is dragged to `(7, 3)` all corners are at `x = 7`. -/
theorem Collapsed_rectangle_stays_collapsed_witness :
    (rectangleFrom ⟨5, 0⟩ ⟨5, 10⟩).2.2.1.mVertices = [0, 1, 2, 3] ∧
    Rectangle.axisAligned (rectangleFrom ⟨5, 0⟩ ⟨5, 10⟩).1 (rectangleFrom ⟨5, 0⟩ ⟨5, 10⟩).2.2.1 ∧
    ((rectangleFrom ⟨5, 0⟩ ⟨5, 10⟩).1 0).mX = ((rectangleFrom ⟨5, 0⟩ ⟨5, 10⟩).1 1).mX ∧
    (∀ v ∈ (rectangleFrom ⟨5, 0⟩ ⟨5, 10⟩).2.2.1.mVertices,
      ((Rectangle.Adjust (rectangleFrom ⟨5, 0⟩ ⟨5, 10⟩).2.2.1 7 3 0
        (rectangleFrom ⟨5, 0⟩ ⟨5, 10⟩).1).1 v).mX = 7) ∧
    Rectangle.GetLength (Rectangle.Adjust (rectangleFrom ⟨5, 0⟩ ⟨5, 10⟩).2.2.1 7 3 0
      (rectangleFrom ⟨5, 0⟩ ⟨5, 10⟩).1).2 = 0 :=
  have hal : Rectangle.axisAligned (rectangleFrom ⟨5, 0⟩ ⟨5, 10⟩).1
      (rectangleFrom ⟨5, 0⟩ ⟨5, 10⟩).2.2.1 := by
    unfold Rectangle.axisAligned; decide!
  have hw : ((rectangleFrom ⟨5, 0⟩ ⟨5, 10⟩).1 0).mX = ((rectangleFrom ⟨5, 0⟩ ⟨5, 10⟩).1 1).mX := by
    decide!
  have h := (Collapsed_rectangle_stays_collapsed (rectangleFrom ⟨5, 0⟩ ⟨5, 10⟩).2.2.1
    (rectangleFrom ⟨5, 0⟩ ⟨5, 10⟩).1 0 1 2 3 0 7 3 (by decide!) (by decide!) hal
    (by decide!)).1 hw
  ⟨by decide!, hal, hw, h.1, h.2⟩
/-! ## Scenes in which the pointers `gSelectedShape` and `gSelectedPoint` are stale -/

/-- C24, evaluated.  Two points are placed in `PENTAGON` mode and saved, the mode
is changed to `LINE`, the file is loaded, which brings the two points back as
in-progress points, and one more point is placed: a line with three vertices is
committed, and its constructor writes the count to `cerr`. -/
theorem Load_then_click_commits_line_with_three_vertices :
    (run (InitializeMyStuff none) pointsReloadedInLineMode).isOk = true ∧
    threeVertexLine.gShapeMode = .LINE ∧
    threeVertexLine.gShapes = [0] ∧ threeVertexLine.gPoints = [] ∧
    (threeVertexLine.shapes 0).mShapeType = .LINE ∧
    (threeVertexLine.shapes 0).mVertices.map threeVertexLine.mem =
      [⟨300, 500⟩, ⟨350, 500⟩, ⟨400, 400⟩] ∧
    threeVertexLine.file =
      some [{ tag := 0
              toks := [⟨300, 3⟩, ⟨500, 3⟩, ⟨350, 3⟩, ⟨500, 3⟩]
              trailingBlank := true }] ∧
    threeVertexLine.cerr = [Diag.wrongVertexCount 3 .LINE] := by
  decide!

/-- C25, evaluated.  A line is drawn and its first vertex clicked, which leaves
`gSelectedShape` on the line; a point is placed in `PENTAGON` mode and the left
button pressed on it.  The pointer-move to `(500, 350)` is passed to `Move` of
the line with the in-progress point, which is not a vertex of the line: the
point goes to `(500, 350)` and both end points of the line move by `(0, 50)`. -/
theorem Drag_of_in_progress_point_moves_line :
    (run (InitializeMyStuff none) pointPressedAfterPick).isOk = true ∧
    inProgressPressed.gLeftDragging = true ∧ inProgressPressed.gRightDragging = false ∧
    inProgressPressed.gShapes = [0] ∧ inProgressPressed.gPoints = [2] ∧
    inProgressPressed.gSelectedShape = some 0 ∧ inProgressPressed.gSelectedPoint = some 2 ∧
    (inProgressPressed.shapes 0).mVertices = [0, 1] ∧
    (inProgressPressed.shapes 0).mSelected = false ∧
    [0, 1, 2].map inProgressPressed.mem = [⟨250, 300⟩, ⟨400, 300⟩, ⟨500, 300⟩] ∧
    (motion inProgressPressed 500 250).isOk = true ∧
    (inProgressDragged.shapes 0).mVertices = [0, 1] ∧
    [0, 1, 2].map inProgressDragged.mem = [⟨250, 350⟩, ⟨400, 350⟩, ⟨500, 350⟩] := by
  decide!

/-- C26, evaluated.  A line is drawn and the left button pressed on its first
vertex; while it is held the right button is pressed and released on the empty
canvas, which sets `gSelectedPoint` to null and leaves `gLeftDragging` set.  The
next pointer-move calls `Move` of the line with the null pointer. -/
theorem Right_click_during_drag_drops_point :
    (run (InitializeMyStuff none) rightClickDuringDrag).isOk = true ∧
    draggedPointDropped.gLeftDragging = true ∧ draggedPointDropped.gRightDragging = false ∧
    draggedPointDropped.gSelectedShape = some 0 ∧
    draggedPointDropped.gSelectedPoint = none ∧
    haltOf (motion draggedPointDropped 250 250) = some .nullPointer ∧
    haltOf (run (InitializeMyStuff none) (rightClickDuringDrag ++ [.motion 250 250])) =
      some .nullPointer := by
  decide!
/-! ## The buttons of the control panel and the colours of the shapes -/

end Draw
